import Mathlib

/-!
Verification development for the `evaluate_py` benchmark-evaluation engine
(UniFinEval).  The Python modules under `evaluate_py/` are shallowly embedded
as executable Lean definitions: strings are `String` (or `List Char` where the
Python code indexes into the text), Python floats that are only ever compared
or summed are `ℚ`, JSON-ish dynamic values are small inductive types, and
Python `dict`s that rely on insertion order are association lists.  External
effects (the model/judge HTTP calls, file writes) are modelled as explicit
parameters or state transitions.
-/

set_option maxRecDepth 100000
set_option maxHeartbeats 1600000

namespace UniFinEval

/-! ## Dynamic values

`AnswerValue` models the Python values that can sit in an `answer` /
`process` field of a `module2` record: `None`, a string, a per-round dict of
values, or some other object (`aother` records only its Python truthiness,
which is all the embedded code ever inspects of such values). -/

inductive AnswerValue : Type where
  | anull : AnswerValue
  | astr (s : String) : AnswerValue
  | adict (m : List (String × AnswerValue)) : AnswerValue
  | aother (truthy : Bool) : AnswerValue

/-- Python truthiness of an `AnswerValue` (`bool(x)`): `None`, `""` and `{}`
are falsy; other objects carry their truthiness in the `aother` tag. -/
def pyTruthy : AnswerValue → Bool
  | .anull => false
  | .astr s => !s.isEmpty
  | .adict m => !m.isEmpty
  | .aother t => t

/-- `match_gt` is a bool for single-round items and a `{roundK: bool}` dict
for multi-round items (`result_converter.convert_to_module2_format`). -/
inductive MatchGT : Type where
  | mbool (b : Bool) : MatchGT
  | mdict (m : List (String × Bool)) : MatchGT

/-- Ordered association-list lookup (Python `dict.get` on an
insertion-ordered dict). -/
def alookup {α : Type} (m : List (String × α)) (k : String) : Option α :=
  match m with
  | [] => none
  | (k', v) :: t => if k' == k then some v else alookup t k

/-- Shape of a question or reference answer: a single text block or an
ordered per-round map (`round1`, `round2`, ...). -/
inductive QA : Type where
  | qstr (s : String) : QA
  | qmap (m : List (String × String)) : QA

/-- Python `str.strip()` on the character list of a string. -/
def trimChars (l : List Char) : List Char :=
  (((l.dropWhile Char.isWhitespace).reverse).dropWhile Char.isWhitespace).reverse

/-- Python `not s.strip()`: the string has no non-whitespace characters. -/
def isBlankStr (s : String) : Bool := (trimChars s.data).isEmpty

/-- Python `s.strip()` as a string. -/
def pyStrip (s : String) : String := String.mk (trimChars s.data)

/-- One model's result object inside a `module2` record: the fields read by
`statistics.py`, `result_utils.py` and `main.py`. -/
structure ModelEntry : Type where
  model_name : String
  answer : AnswerValue
  process : AnswerValue
  response_time : ℚ
  match_gt : MatchGT
  judge_reasoning : AnswerValue

/-- A `module2`-format result record, as stored in an output artifact.
Payload fields that no embedded operation reads (the copied question text,
reference answer, image paths, ...) are carried as opaque strings where a
claim needs them and omitted otherwise; the fields below are exactly the
ones consulted by the statistics aggregator, the dedup passes and the resume
scan. -/
structure Module2Item : Type where
  question_id : String
  profile : Option String
  /-- the copied question text. -/
  question : QA
  /-- the copied reference answer. -/
  answer : QA
  /-- the copied image paths. -/
  image_path : List String
  /-- the copied choice options (shape preserved opaquely). -/
  options : Option AnswerValue
  /-- model entries keyed by `"model"` / `"model1"` .. `"model5"`. -/
  models : List (String × ModelEntry)
  /-- classification-tag fields present on the record (`question_type`,
  `image_type`, `fintype`, `scenario`, ...), as read by
  `item.get(category_field)`. -/
  cats : List (String × String)
  /-- the `comparison.agreement_with_gt` field written by the converter. -/
  agreement_with_gt : Nat

/-- Key lookup for the model entries of a record (`module2_item.get(key)`). -/
def getModelKey (item : Module2Item) (k : String) : Option ModelEntry :=
  alookup item.models k

/-! ## `result_utils.py` : answer emptiness -/

/-- `result_utils._check_answer_empty`: `None` is empty; a dict is empty when
it has no entries or any round's value is falsy or a whitespace-only string;
a string is empty when it has no non-whitespace characters; any other value
(numbers, ...) is non-empty. -/
def check_answer_empty : AnswerValue → Bool
  | .anull => true
  | .adict m =>
      if m.isEmpty then true
      else m.any (fun kv =>
        !pyTruthy kv.2 ||
        (match kv.2 with
         | .astr s => isBlankStr s
         | _ => false))
  | .astr s => isBlankStr s
  | .aother _ => false

/-- The candidate model keys scanned by `result_utils.is_answer_empty`. -/
def possibleModelKeys : List String :=
  ["model", "model1", "model2", "model3", "model4", "model5"]

/-- The fall-through scan of `result_utils.is_answer_empty` over the
candidate keys (skipping the explicitly supplied `model_key`).  An absent key
behaves like the empty dict `{}`: with a `model_name` supplied its
`model_name` field (`None`) never matches, and without one its `answer`
(`""`) is empty, so in both cases the scan moves on. -/
def isAnswerEmptyScan (item : Module2Item) (model_key : Option String)
    (model_name : Option String) : List String → Bool
  | [] => true
  | k :: rest =>
      if model_key == some k then isAnswerEmptyScan item model_key model_name rest
      else
        match getModelKey item k with
        | some md =>
            match model_name with
            | some mn =>
                if md.model_name == mn then check_answer_empty md.answer
                else isAnswerEmptyScan item model_key model_name rest
            | none =>
                if !check_answer_empty md.answer then false
                else isAnswerEmptyScan item model_key model_name rest
        | none => isAnswerEmptyScan item model_key model_name rest

/-- `result_utils.is_answer_empty(module2_item, model_key, model_name)`.
The first phase checks the supplied `model_key` and returns `False` early
when that entry's name matches (or no name was supplied) and its answer is
non-empty; otherwise the scan over all candidate keys decides. -/
def is_answer_empty (item : Module2Item) (model_key : Option String)
    (model_name : Option String) : Bool :=
  let phase1ReturnsFalse :=
    match model_key with
    | some mk =>
        match getModelKey item mk with
        | some md =>
            match model_name with
            | some mn =>
                if md.model_name != mn then false
                else !check_answer_empty md.answer
            | none => !check_answer_empty md.answer
        | none => false
    | none => false
  if phase1ReturnsFalse then false
  else isAnswerEmptyScan item model_key model_name possibleModelKeys

/-! ## `statistics.py` : entry validity and lookup -/

/-- Literal comparison `x in ("", None, {})` used by
`calculate_output_statistics._model_entry_is_valid`. -/
def isBlankLiteral : AnswerValue → Bool
  | .astr s => s == ""
  | .anull => true
  | .adict m => m.isEmpty
  | .aother _ => false

/-- `calculate_output_statistics._model_entry_is_valid`: an entry is a real
result (not a placeholder) when its response time is positive or its answer
or process is not one of `""`, `None`, `{}`. -/
def model_entry_is_valid (e : ModelEntry) : Bool :=
  (0 < e.response_time) || !isBlankLiteral e.answer || !isBlankLiteral e.process

/-- The numbered-key loop of `_find_model_entry` over `model1` .. `model5`. -/
def findNumberedEntry (item : Module2Item) (model_name : String) :
    List String → Option (String × ModelEntry)
  | [] => none
  | k :: rest =>
      match getModelKey item k with
      | some e =>
          if model_entry_is_valid e && e.model_name == model_name then some (k, e)
          else findNumberedEntry item model_name rest
      | none => findNumberedEntry item model_name rest

/-- `calculate_output_statistics._find_model_entry`: prefer the `"model"` key
(new format), else scan `model1` .. `model5`; an entry is returned only when
it is valid and its `model_name` matches. -/
def find_model_entry (item : Module2Item) (model_name : String) :
    Option (String × ModelEntry) :=
  match getModelKey item "model" with
  | some e =>
      if model_entry_is_valid e && e.model_name == model_name then some ("model", e)
      else findNumberedEntry item model_name ["model1", "model2", "model3", "model4", "model5"]
  | none => findNumberedEntry item model_name ["model1", "model2", "model3", "model4", "model5"]

/-- The `has_valid_answer` computation shared by `_deduplicate_results` and
the whole-item total pass: some enabled model has an entry with a non-empty
answer. -/
def itemHasValidAnswer (enabled_models : List String) (item : Module2Item) : Bool :=
  enabled_models.any (fun mn =>
    match find_model_entry item mn with
    | some (mk, _) => !is_answer_empty item (some mk) (some mn)
    | none => false)

/-! ## `statistics.py` : `calculate_output_statistics` -/

/-- Association-list update that keeps the key's original position
(Python `d[k] = v` on a present key). -/
def areplace {α : Type} (m : List (String × α)) (k : String) (v : α) :
    List (String × α) :=
  match m with
  | [] => []
  | (k', v') :: t => if k' == k then (k', v) :: t else (k', v') :: areplace t k v

/-- Emptiness of one round's answer inside the per-round branch of
`_count_item`: the round's value (defaulting to `""` when the key is missing
from the answer map) is `None`, a whitespace-only string, or an empty dict. -/
def round_answer_empty (am : List (String × AnswerValue)) (round_key : String) :
    Bool :=
  match (alookup am round_key).getD (.astr "") with
  | .anull => true
  | .astr s => isBlankStr s
  | .adict m => m.isEmpty
  | .aother _ => false

/-- The `has_any_answer` check of the whole-item branch of `_count_item`:
some round's value is neither `None` nor a whitespace-only string (any
non-string, non-`None` value counts). -/
def adictHasAnyAnswer (am : List (String × AnswerValue)) : Bool :=
  am.any (fun kv =>
    match kv.2 with
    | .anull => false
    | .astr s => !isBlankStr s
    | _ => true)

/-- `all(match_gt.values()) if match_gt else False`. -/
def allRoundsTrue (mg : List (String × Bool)) : Bool :=
  !mg.isEmpty && mg.all (fun rk => rk.2)

/-- `calculate_output_statistics._count_item`: the `(count, correct)`
contribution of one `(record, model)` pair.  A dict-valued `match_gt` marks a
multi-round item: in per-round mode each round of `match_gt` whose answer is
non-empty contributes one unit; in whole-item mode the item contributes one
unit iff some round has a non-empty answer (or, for non-dict answers, the
model's answer is not empty), counted correct iff all rounds are correct.  A
boolean `match_gt` is a single-round item, skipped when the model's answer is
empty. -/
def count_item (count_by_rounds : Bool) (item : Module2Item) (model_key : String)
    (entry : ModelEntry) (model_name : Option String) : Nat × Nat :=
  match entry.match_gt with
  | .mdict mg =>
      if count_by_rounds then
        match entry.answer with
        | .adict am =>
            mg.foldl (fun acc rk =>
              if !round_answer_empty am rk.1 then
                (acc.1 + 1, acc.2 + (if rk.2 then 1 else 0))
              else acc) (0, 0)
        | _ => (0, 0)
      else
        let skip :=
          match entry.answer with
          | .adict am => !adictHasAnyAnswer am
          | _ =>
              match model_name with
              | some mn => is_answer_empty item (some model_key) (some mn)
              | none => false
        if skip then (0, 0)
        else (1, if allRoundsTrue mg then 1 else 0)
  | .mbool b =>
      let skip :=
        match model_name with
        | some mn => is_answer_empty item (some model_key) (some mn)
        | none => false
      if skip then (0, 0) else (1, if b then 1 else 0)

/-- One step of `calculate_output_statistics._deduplicate_results`: the
accumulator maps each question id to its current representative record and a
flag telling whether a record with a non-empty answer has been found
(Python's `question_id_to_item` / `question_id_has_valid_answer`, which are
always updated together). -/
def dedupStep (enabled_models : List String)
    (acc : List (String × Module2Item × Bool)) (item : Module2Item) :
    List (String × Module2Item × Bool) :=
  let item_id := item.question_id
  if item_id == "" then acc
  else
    match alookup acc item_id with
    | some (_, true) => acc
    | some (_, false) =>
        if itemHasValidAnswer enabled_models item then
          areplace acc item_id (item, true)
        else acc
    | none => acc ++ [(item_id, (item, itemHasValidAnswer enabled_models item))]

/-- `calculate_output_statistics._deduplicate_results`: keep, per question
id, the first record with a non-empty answer (or the first record at all
while none has a non-empty answer), in first-occurrence order. -/
def deduplicate_results (enabled_models : List String)
    (results : List Module2Item) : List Module2Item :=
  (results.foldl (dedupStep enabled_models) []).map (fun kv => kv.2.1)

/-- Adds `_count_item`'s contribution for one `(record, model)` pair to a
running `(total, correct)` pair (`_find_model_entry` misses contribute
nothing). -/
def addModelCount (cbr : Bool) (item : Module2Item) (mn : String)
    (acc : Nat × Nat) : Nat × Nat :=
  match find_model_entry item mn with
  | none => acc
  | some (mk, e) =>
      let c := count_item cbr item mk e (some mn)
      (acc.1 + c.1, acc.2 + c.2)

/-- The `by_model` total of `calculate_output_statistics`: sum of
`_count_item` over the deduplicated records for one model. -/
def by_model_counts (cbr : Bool) (enabled_models : List String)
    (results : List Module2Item) (mn : String) : Nat × Nat :=
  (deduplicate_results enabled_models results).foldl
    (fun acc item => addModelCount cbr item mn acc) (0, 0)

/-- The `by_profile` total of `calculate_output_statistics`: sum of
`_count_item` over the deduplicated records carrying the given profile,
over all enabled models. -/
def by_profile_counts (cbr : Bool) (enabled_models : List String)
    (results : List Module2Item) (p : String) : Nat × Nat :=
  (deduplicate_results enabled_models results).foldl
    (fun acc item =>
      if item.profile == some p then
        enabled_models.foldl (fun acc mn => addModelCount cbr item mn acc) acc
      else acc) (0, 0)

/-- The `by_category` total of `calculate_output_statistics` for one
classification field and value. -/
def by_category_counts (cbr : Bool) (enabled_models : List String)
    (results : List Module2Item) (field value : String) : Nat × Nat :=
  (deduplicate_results enabled_models results).foldl
    (fun acc item =>
      if alookup item.cats field == some value then
        enabled_models.foldl (fun acc mn => addModelCount cbr item mn acc) acc
      else acc) (0, 0)

/-- Whether an entry counts as fully correct in the whole-item total pass:
`all(match_gt.values())` for dicts (empty dict is not correct), the boolean
itself otherwise. -/
def entry_whole_correct (e : ModelEntry) : Bool :=
  match e.match_gt with
  | .mdict mg => allRoundsTrue mg
  | .mbool b => b

/-- One step of the first pass of the whole-item total
(`calculate_output_statistics`, the `else` branch of the total score): per
question id keep the first record, replaced by a later record only when the
kept one has no non-empty answer and the later one does. -/
def overallPass1Step (enabled_models : List String)
    (acc : List (String × Module2Item)) (item : Module2Item) :
    List (String × Module2Item) :=
  let item_id := item.question_id
  if item_id == "" then acc
  else
    match alookup acc item_id with
    | none => acc ++ [(item_id, item)]
    | some old_item =>
        if !itemHasValidAnswer enabled_models old_item &&
            itemHasValidAnswer enabled_models item then
          areplace acc item_id item
        else acc

/-- The second pass of the whole-item total: a question contributes one unit
iff some enabled model has a non-empty answer, counted correct iff some
enabled model has a non-empty answer and a fully correct verdict. -/
def overall_item_contribution (enabled_models : List String)
    (item : Module2Item) : Nat × Nat :=
  let correct := enabled_models.any (fun mn =>
    match find_model_entry item mn with
    | some (mk, e) =>
        !is_answer_empty item (some mk) (some mn) && entry_whole_correct e
    | none => false)
  if itemHasValidAnswer enabled_models item then (1, if correct then 1 else 0)
  else (0, 0)

/-- The overall total of `calculate_output_statistics`: in per-round mode,
sum of `_count_item` over the deduplicated records and all models; in
whole-item mode, one unit per question id with a non-empty answer, chosen by
the first-non-empty-wins pass over the raw records. -/
def total_counts (cbr : Bool) (enabled_models : List String)
    (results : List Module2Item) : Nat × Nat :=
  if cbr then
    (deduplicate_results enabled_models results).foldl
      (fun acc item =>
        if item.question_id == "" then acc
        else enabled_models.foldl (fun acc mn => addModelCount cbr item mn acc) acc)
      (0, 0)
  else
    (results.foldl (overallPass1Step enabled_models) []).foldl
      (fun acc kv =>
        let c := overall_item_contribution enabled_models kv.2
        (acc.1 + c.1, acc.2 + c.2)) (0, 0)

/-- A `{total_count, correct_count, accuracy}` block of the statistics
header. -/
structure BreakdownStat : Type where
  total_count : Nat
  correct_count : Nat
  accuracy : ℚ
deriving DecidableEq

/-- Builds a statistics block from a `(total, correct)` pair
(`accuracy = correct / total`, `0` when the total is zero). -/
def mkStat (p : Nat × Nat) : BreakdownStat :=
  { total_count := p.1, correct_count := p.2,
    accuracy := if 0 < p.1 then (p.2 : ℚ) / (p.1 : ℚ) else 0 }

/-- First-occurrence insertion used to model Python set collection where the
iteration order does not matter. -/
def insertOnce (l : List String) (s : String) : List String :=
  if l.contains s then l else l ++ [s]

/-- The profile set of the deduplicated records
(`{item["profile"] for item in deduplicated_results if "profile" in item}`). -/
def collectProfiles (items : List Module2Item) : List String :=
  items.foldl (fun acc item =>
    match item.profile with
    | some p => insertOnce acc p
    | none => acc) []

/-- The classification fields scanned by both statistics functions. -/
def category_fields : List String :=
  ["question_type", "fintype", "image_type", "scenario", "capability",
   "difficulty", "source", "language"]

/-- The truthy values of one classification field over the deduplicated
records. -/
def collectCategoryValues (items : List Module2Item) (field : String) :
    List String :=
  items.foldl (fun acc item =>
    match alookup item.cats field with
    | some v => if v != "" then insertOnce acc v else acc
    | none => acc) []

/-- The statistics header written into an output artifact. -/
structure OutputStats : Type where
  total : BreakdownStat
  by_model : List (String × BreakdownStat)
  by_profile : List (String × BreakdownStat)
  by_category : List (String × List (String × BreakdownStat))
  /-- the `scoring_method` marker (`True` = per-round). -/
  count_by_rounds : Bool
deriving DecidableEq

/-- `statistics.calculate_output_statistics`: the full statistics header,
assembled from the totals above. -/
def calculate_output_statistics (cbr : Bool) (enabled_models : List String)
    (results : List Module2Item) : OutputStats :=
  let dedup := deduplicate_results enabled_models results
  { total := mkStat (total_counts cbr enabled_models results)
    by_model := enabled_models.map (fun mn =>
      (mn, mkStat (by_model_counts cbr enabled_models results mn)))
    by_profile := (collectProfiles dedup).map (fun p =>
      (p, mkStat (by_profile_counts cbr enabled_models results p)))
    by_category := category_fields.filterMap (fun f =>
      let vs := collectCategoryValues dedup f
      if vs.isEmpty then none
      else some (f, vs.map (fun v =>
        (v, mkStat (by_category_counts cbr enabled_models results f v)))))
    count_by_rounds := cbr }

/-! ## `result_converter.flush_json_buffer` and the final statistics rewrite
of `main.main`: the atomic-replace write discipline.

The file system is modelled as the content of the target path (`disk`), the
content of the temporary sibling path (`temp`) and the in-memory result
buffer; `write_ok` models whether the temporary-file write succeeds.  The
`os.replace` of a fully written temporary file is the atomic step that
installs the complete replacement. -/

/-- An output artifact: statistics header plus the ordered record
collection. -/
structure Artifact : Type where
  statistics : OutputStats
  results : List Module2Item

/-- `existing_data = {"statistics": {}, "results": []}` — the artifact
assumed when the output file does not exist yet. -/
def emptyArtifact : Artifact :=
  { statistics :=
      { total := { total_count := 0, correct_count := 0, accuracy := 0 },
        by_model := [], by_profile := [], by_category := [],
        count_by_rounds := false }
    results := [] }

/-- The persistent state touched by `flush_json_buffer` for one
`(model, profile)` pair. -/
structure StoreState : Type where
  disk : Option Artifact
  temp : Option Artifact
  buffer : List Module2Item

/-- `result_converter.flush_json_buffer`: no-op on an empty buffer;
otherwise append the buffered records to the on-disk records, recompute the
statistics, write the complete replacement to the temporary sibling path and
atomically replace the target.  If the temporary-file write fails, the
temporary file is removed, the target is left untouched, the buffer is
retained, and the error is reported (second component `true`); the buffer is
cleared only after a successful replace. -/
def flush_json_buffer (cbr : Bool) (enabled_models : List String)
    (write_ok : Bool) (st : StoreState) : StoreState × Bool :=
  if st.buffer.isEmpty then (st, false)
  else
    let existing := st.disk.getD emptyArtifact
    let final_results := existing.results ++ st.buffer
    let stats := calculate_output_statistics cbr enabled_models final_results
    let replacement : Artifact := { statistics := stats, results := final_results }
    if write_ok then
      ({ disk := some replacement, temp := none, buffer := [] }, false)
    else
      ({ disk := st.disk, temp := none, buffer := st.buffer }, true)

/-- The final statistics rewrite of `main.main` (JSON branch): reread the
artifact, recompute the statistics over all stored records, write the
complete replacement to the temporary sibling and atomically replace; on a
temporary-file write failure the original artifact is left untouched and the
error reported. -/
def final_statistics_rewrite (cbr : Bool) (enabled_models : List String)
    (write_ok : Bool) (disk : Artifact) : Artifact × Bool :=
  let stats := calculate_output_statistics cbr enabled_models disk.results
  if write_ok then
    ({ statistics := stats, results := disk.results }, false)
  else
    (disk, true)

/-! ## `main.py` : the resume scan over an existing artifact (lines 342-434) -/

/-- Accumulator of the resume scan: the per-id representative record and
valid-answer flag, the set of completed (non-empty-answer) ids, and the two
counters logged by `main.main`. -/
structure ResumeAcc : Type where
  seen_ids : List String
  map : List (String × Module2Item)
  flags : List (String × Bool)
  completed_ids : List String
  removed_duplicate_count : Nat
  empty_answer_count : Nat

/-- Description of the initial, empty resume accumulator. -/
def resumeInit : ResumeAcc :=
  { seen_ids := [], map := [], flags := [], completed_ids := [],
    removed_duplicate_count := 0, empty_answer_count := 0 }

/-- One step of the resume scan of `main.main`: per question id keep the
first record with a non-empty answer (`is_answer_empty` with only the model
name); once one is found later duplicates are dropped; ids whose records are
all empty stay out of `completed_ids` and are re-evaluated. -/
def resumeStep (model_name : String) (acc : ResumeAcc) (item : Module2Item) :
    ResumeAcc :=
  let item_id := item.question_id
  if item_id == "" then acc
  else if (alookup acc.flags item_id).getD false then
    { acc with removed_duplicate_count := acc.removed_duplicate_count + 1 }
  else
    let is_empty := is_answer_empty item none (some model_name)
    if !acc.seen_ids.contains item_id then
      if !is_empty then
        { acc with
          seen_ids := acc.seen_ids ++ [item_id]
          map := acc.map ++ [(item_id, item)]
          flags := acc.flags ++ [(item_id, true)]
          completed_ids := acc.completed_ids ++ [item_id] }
      else
        { acc with
          seen_ids := acc.seen_ids ++ [item_id]
          map := acc.map ++ [(item_id, item)]
          flags := acc.flags ++ [(item_id, false)]
          empty_answer_count := acc.empty_answer_count + 1 }
    else
      if !is_empty then
        { acc with
          map := areplace acc.map item_id item
          flags := areplace acc.flags item_id true
          completed_ids := acc.completed_ids ++ [item_id]
          removed_duplicate_count := acc.removed_duplicate_count + 1
          empty_answer_count := acc.empty_answer_count - 1 }
      else
        { acc with removed_duplicate_count := acc.removed_duplicate_count + 1 }

/-- Runs the resume scan of `main.main` over the records of an existing
artifact; `completed_ids` are the ids the scheduler will skip. -/
def resume_scan (model_name : String) (all_items : List Module2Item) : ResumeAcc :=
  all_items.foldl (resumeStep model_name) resumeInit

/-! ## `model_api.py` : the answer-extraction chain

Texts are embedded as `List Char` because the Python code indexes into
them.  Python `str.strip()` is `trimChars`; `int(len * 0.9)` is the exact
`9 * len / 10` (the float computation agrees with the integer one for all
realistic lengths). -/

/-- Characters of the structured marker searched by
`extract_boxed_content` (a backslash, then `boxed`, then an opening
brace). -/
def boxedPat : List Char := ['\\', 'b', 'o', 'x', 'e', 'd', '\x7b']

/-- Helper for Python `text.find(sub, pos)`: first index (counting from the
given offset) where the pattern occurs in the remaining text. -/
def findSubAux (pat : List Char) : List Char → Nat → Option Nat
  | [], i => if pat.isEmpty then some i else none
  | c :: rest, i =>
      if pat.isPrefixOf (c :: rest) then some i
      else findSubAux pat rest (i + 1)

/-- Python `text.find(sub, start)` (absolute index, `none` for `-1`). -/
def findSubFrom (l pat : List Char) (start : Nat) : Option Nat :=
  (findSubAux pat (l.drop start) 0).map (· + start)

/-- The brace-depth scan of `extract_boxed_content`: starting just after a
marker's opening brace, find the index of the matching closing brace,
tracking nested brace depth.  The first argument is the remaining text, the
second the absolute index of its head. -/
def scanCloseBrace : List Char → Nat → Nat → Option Nat
  | [], _, _ => none
  | c :: rest, i, depth =>
      if c == '\x7b' then scanCloseBrace rest (i + 1) (depth + 1)
      else if c == '\x7d' then
        if depth == 0 then some i else scanCloseBrace rest (i + 1) (depth - 1)
      else scanCloseBrace rest (i + 1) depth

/-- Python slice `text[a:b]`. -/
def sliceChars (l : List Char) (a b : Nat) : List Char :=
  (l.drop a).take (b - a)

/-- The `while True` loop of `extract_boxed_content`: find each marker, match
its balanced closing brace, collect the non-empty stripped contents; a marker
with no matching close is skipped.  The scan position grows by at least 7
every iteration, so fuel `length + 1` never runs out. -/
def boxedLoop (text : List Char) : Nat → Nat → List (List Char) → List (List Char)
  | 0, _, acc => acc
  | fuel + 1, pos, acc =>
      match findSubFrom text boxedPat pos with
      | none => acc
      | some start =>
          let brace_start := start + 7
          match scanCloseBrace (text.drop brace_start) brace_start 0 with
          | some end_idx =>
              let content := trimChars (sliceChars text brace_start end_idx)
              let acc' := if content.isEmpty then acc else acc ++ [content]
              boxedLoop text fuel (end_idx + 1) acc'
          | none => boxedLoop text fuel brace_start acc

/-- Embeds `model_api.extract_boxed_content`: all balanced-brace marker
matches are collected and the last one is returned (`None` when there is
none). -/
def extract_boxed_content (text : List Char) : Option (List Char) :=
  (boxedLoop text (text.length + 1) 0 []).getLast?

/-- Embeds `model_api.estimate_text_tokens`: `0` for empty text, else
`len // 4 + 1`. -/
def estimate_text_tokens (text : List Char) : Nat :=
  if text.isEmpty then 0 else text.length / 4 + 1

/-- The `while` loop of `truncate_last_n_tokens`: while the estimate exceeds
the bound and the text is non-empty, replace the text by
`text[int(len(text) * 0.9):]` — its last tenth.  Fuel `length + 1` is enough
whenever the Python loop terminates (it always does for a positive token
bound). -/
def truncLoop (n : Nat) : Nat → List Char → List Char
  | 0, t => t
  | fuel + 1, t =>
      if estimate_text_tokens t > n && t.length > 0 then
        truncLoop n fuel (t.drop (9 * t.length / 10))
      else t

/-- Embeds `model_api.truncate_last_n_tokens`: return the whole text when
its estimate fits, else start from the last `n * 4` characters and shrink via
the loop above.  (Python `text[-0:]` is the whole text, hence the zero-target
case.) -/
def truncate_last_n_tokens (text : List Char) (n_tokens : Nat) : List Char :=
  if text.isEmpty then []
  else if estimate_text_tokens text ≤ n_tokens then text
  else
    let target_chars := n_tokens * 4
    let truncated :=
      if target_chars == 0 then text else text.drop (text.length - target_chars)
    truncLoop n_tokens (truncated.length + 1) truncated

/-- Characters of the fence opening searched by `extract_json_from_text`. -/
def fencePat : List Char := "```json".data

/-- Characters of a fence closing. -/
def threeTicks : List Char := "```".data

/-- Length of the leading whitespace run (regex `\s*`). -/
def wsCount (l : List Char) : Nat := (l.takeWhile Char.isWhitespace).length

/-- Python `text.rfind(c)` (absolute index of the last occurrence). -/
def rfindChar (l : List Char) (c : Char) : Option Nat :=
  match l.reverse.findIdx? (· == c) with
  | some i => some (l.length - 1 - i)
  | none => none

/-- Python `text.find(c, start)`. -/
def findCharFrom (l : List Char) (c : Char) (start : Nat) : Option Nat :=
  match (l.drop start).findIdx? (· == c) with
  | some i => some (start + i)
  | none => none

/-- Finds the lazy closing brace of the fenced alternative of
`extract_json_from_text`'s regex: the smallest index holding a closing brace
that is followed by optional whitespace and a fence closing. -/
def closeFencedLoop (l : List Char) : Nat → Nat → Option Nat
  | 0, _ => none
  | fuel + 1, j =>
      if h : j < l.length then
        if l.get ⟨j, h⟩ == '\x7d' then
          if threeTicks.isPrefixOf ((l.drop (j + 1)).dropWhile Char.isWhitespace)
          then some j
          else closeFencedLoop l fuel (j + 1)
        else closeFencedLoop l fuel (j + 1)
      else none

/-- Matches the fenced alternative of the regex at one position: a fence
opening, optional whitespace, an opening brace, and a lazy closing brace
whose tail continues with optional whitespace and a fence closing; returns
the span of the braced group. -/
def fencedMatchAt (l : List Char) (i : Nat) : Option (Nat × Nat) :=
  if fencePat.isPrefixOf (l.drop i) then
    let braceIdx := i + 7 + wsCount (l.drop (i + 7))
    if l.get? braceIdx == some '\x7b' then
      match closeFencedLoop l (l.length + 1) (braceIdx + 1) with
      | some j => some (braceIdx, j)
      | none => none
    else none
  else none

/-- Matches the bare alternative of the regex at one position: an opening
brace, greedily closed by the last closing brace in the text. -/
def bareMatchAt (l : List Char) (i : Nat) : Option Nat :=
  if l.get? i == some '\x7b' then
    match rfindChar l '\x7d' with
    | some j => if i < j then some j else none
    | none => none
  else none

/-- Performs the regex search of `extract_json_from_text`: scan positions
left to right, trying the fenced alternative before the bare one; returns
the span of the captured braced group. -/
def jsonSearchLoop (l : List Char) : Nat → Nat → Option (Nat × Nat)
  | 0, _ => none
  | fuel + 1, i =>
      if i < l.length then
        match fencedMatchAt l i with
        | some (a, b) => some (a, b)
        | none =>
            match bareMatchAt l i with
            | some j => some (i, j)
            | none => jsonSearchLoop l fuel (i + 1)
      else none

/-- Embeds `model_api.extract_json_from_text`, with the external
`json.loads` supplied as a decoding oracle (`none` models a parse failure;
decoded objects are restricted to their string-valued fields, the only kind
the extraction chain reads).  A successfully decoded regex candidate is
returned as is; otherwise the fallback from the first opening brace to the
last closing brace is tried; otherwise the empty object. -/
def extract_json_from_text
    (jloads : List Char → Option (List (String × String)))
    (text : List Char) : List (String × String) :=
  let t := trimChars text
  let fromSearch :=
    match jsonSearchLoop t (t.length + 1) 0 with
    | some (a, b) => jloads (sliceChars t a (b + 1))
    | none => none
  match fromSearch with
  | some obj => obj
  | none =>
      match findCharFrom t '\x7b' 0, rfindChar t '\x7d' with
      | some a, some b => (jloads (sliceChars t a (b + 1))).getD []
      | _, _ => []

/-- Stage 3 and stage 4 of `extract_answer_from_response`: the trailing
window bounded to 100 estimated tokens when it is non-blank, else the full
original response; both flagged unstructured. -/
def extractTrailingStage (original : List Char) : List Char × Bool × List Char :=
  let truncated := truncate_last_n_tokens original 100
  if !truncated.isEmpty && !(trimChars truncated).isEmpty then
    (truncated, false, original)
  else (original, false, original)

/-- Stage 2 of `extract_answer_from_response`: a decoded JSON-like object
with a truthy `answer` field yields either the marker content of that field
(structured) or its stripped text (unstructured); in every other case the
trailing-window stage decides. -/
def extractJsonStage
    (jloads : List Char → Option (List (String × String)))
    (original : List Char) : List Char × Bool × List Char :=
  let rj := extract_json_from_text jloads original
  let answer_wrapped := (alookup rj "answer").getD ""
  if !rj.isEmpty && !answer_wrapped.isEmpty then
    match extract_boxed_content answer_wrapped.data with
    | some c =>
        if !c.isEmpty then (c, true, original) else extractTrailingStage original
    | none =>
        let cleaned := trimChars answer_wrapped.data
        if !cleaned.isEmpty then (cleaned, false, original)
        else extractTrailingStage original
  else extractTrailingStage original

/-- Embeds `model_api.extract_answer_from_response`: the deterministic
fallback chain producing `(extracted_answer, is_from_box,
original_response)`.  Stage 1 is the balanced-brace marker scan; stage 2 the
embedded-object scan; stage 3 the trailing window; stage 4 the full text. -/
def extract_answer_from_response
    (jloads : List Char → Option (List (String × String)))
    (response : List Char) : List Char × Bool × List Char :=
  let original := trimChars response
  match extract_boxed_content original with
  | some c =>
      if !c.isEmpty then (c, true, original) else extractJsonStage jloads original
  | none => extractJsonStage jloads original

/-! ## `result_utils.py` : process construction -/

/-- Characters of the defensive double-backslash marker variant removed
first by `strip_boxed_content`. -/
def doubleBoxedPat : List Char := ['\\', '\\', 'b', 'o', 'x', 'e', 'd', '\x7b']

/-- Implements one regex-substitution pass of `strip_boxed_content`
(`re.sub(pat + lazy-any + closing brace, "", text, DOTALL)`): every marker
occurrence followed by a closing brace is removed together with everything
up to that first closing brace; an occurrence with no later closing brace
cannot match (nor can anything after it). -/
def removeLazyPat (pat : List Char) : Nat → List Char → List Char
  | 0, l => l
  | fuel + 1, l =>
      match l with
      | [] => []
      | c :: rest =>
          if pat.isPrefixOf l then
            let after := l.drop pat.length
            match after.findIdx? (· == '\x7d') with
            | some j => removeLazyPat pat fuel (after.drop (j + 1))
            | none => l
          else c :: removeLazyPat pat fuel rest

/-- Embeds `result_utils.strip_boxed_content`: remove all marker fragments
(the double-backslash variant first, then the single-backslash one) and
strip the result. -/
def strip_boxed_content (text : List Char) : List Char :=
  if text.isEmpty then []
  else
    let cleaned := removeLazyPat doubleBoxedPat (text.length + 1) text
    let cleaned2 := removeLazyPat boxedPat (cleaned.length + 1) cleaned
    trimChars cleaned2

/-- One element of a provider `reasoning_details` list: a dict carrying an
optional `text` field, or a bare string. -/
inductive ReasoningDetail : Type where
  | rdDict (text : Option String) : ReasoningDetail
  | rdStr (s : String) : ReasoningDetail

/-- A provider `reasoning_details` value: a list or a bare string. -/
inductive ReasoningDetails : Type where
  | rdList (l : List ReasoningDetail) : ReasoningDetails
  | rdString (s : String) : ReasoningDetails

/-- The message fields of a raw provider response that
`build_process_value` reads (the payload is abstracted to
`choices[0].message`'s three reasoning fields). -/
structure RawMessage : Type where
  reasoning : Option String
  reasoning_content : Option String
  reasoning_details : Option ReasoningDetails

/-- A raw provider response, abstracted to its choices' messages. -/
structure RawResponse : Type where
  choices : List RawMessage

/-- Truthiness-plus-strip test for an optional string field
(`isinstance(r, str) and r.strip()`). -/
def optNonBlank (o : Option String) : Option String :=
  match o with
  | some s => if !isBlankStr s then some (pyStrip s) else none
  | none => none

/-- Collects the non-blank texts of a `reasoning_details` list. -/
def detailTexts (l : List ReasoningDetail) : List String :=
  l.filterMap (fun d =>
    match d with
    | .rdDict t => optNonBlank t
    | .rdStr s => optNonBlank (some s))

/-- The reasoning-extraction part of `build_process_value`: highest-priority
non-blank of `reasoning`, `reasoning_content`, `reasoning_details`
(list items joined by blank lines). -/
def reasoningTextOf (raw : Option RawResponse) : String :=
  match raw with
  | none => ""
  | some r =>
      match r.choices.head? with
      | none => ""
      | some msg =>
          match optNonBlank msg.reasoning with
          | some s => s
          | none =>
              match optNonBlank msg.reasoning_content with
              | some s => s
              | none =>
                  match msg.reasoning_details with
                  | some (.rdList l) =>
                      let texts := detailTexts l
                      if !texts.isEmpty then String.intercalate "\n\n" texts else ""
                  | some (.rdString s) => (optNonBlank (some s)).getD ""
                  | none => ""

/-- Embeds `result_utils.build_process_value`: join the model's reasoning
content (if any) and the marker-stripped body (if any); fall back to the
full answer text when both are empty. -/
def build_process_value (model_answer : String) (raw : Option RawResponse) :
    String :=
  let base_text := model_answer
  let non_box := String.mk (strip_boxed_content base_text.data)
  let reasoning_text := reasoningTextOf raw
  let parts :=
    (if !reasoning_text.isEmpty then ["【思考】\n" ++ reasoning_text] else []) ++
    (if !non_box.isEmpty then ["【回答】\n" ++ non_box] else [])
  if !parts.isEmpty then String.intercalate "\n\n" parts else base_text

/-! ## `evaluator.py` : per-model evaluation and round aggregation

The external calls are supplied as outcome parameters: an `Except` error is
a raised exception (its message), an `Except` value the call's result. -/

/-- The round-level result record built by `evaluate_single_item` for one
model (the per-round `result_data`, merged with the round's question and
reference answer by the summary loop).  Keys the error path does not set
(`reasoning`, `raw_response`, ...) read back as their `dict.get`
defaults. -/
structure EvalRoundData : Type where
  round : String
  question : String
  answer : String
  model_name : String
  error : Option String
  model_answer : String
  extracted_answer : String
  is_from_box : Bool
  answer_for_judge : String
  is_correct : Bool
  reasoning : String
  response_time : ℚ
  judge_time : ℚ
  raw_response : Option RawResponse

/-- The model-level result record of `evaluate_single_item` (single-round
entry, multi-round summary, or error entry).  Optional fields model keys the
source sets only on some paths. -/
structure EvalModelData : Type where
  model_name : String
  error : Option String
  is_multi_round : Bool
  rounds : Option (List EvalRoundData)
  all_rounds_correct : Option Bool
  is_correct : Option Bool
  model_answer : String
  extracted_answer : String
  is_from_box : Bool
  answer_for_judge : String
  reasoning : String
  response_time : ℚ
  judge_time : ℚ
  total_response_time : Option ℚ
  total_judge_time : Option ℚ
  raw_response : Option RawResponse

/-- The error entry stored by the exception handler of the multi-round loop
of `evaluate_single_item` (`rounds_data[round_key][model_name] = {...}`):
all answer fields empty, `is_correct` false, the exception text only in
`error`. -/
def errorRoundData (round_key question gt_answer mn e : String) : EvalRoundData :=
  { round := round_key, question := question, answer := gt_answer,
    model_name := mn, error := some e, model_answer := "",
    extracted_answer := "", is_from_box := false, answer_for_judge := "",
    is_correct := false, reasoning := "", response_time := 0, judge_time := 0,
    raw_response := none }

/-- The error entry returned by the exception handler of
`eval_single_model`: all answer fields empty, `is_correct` false, the
exception text only in `error`. -/
def errorModelData (mn e : String) : EvalModelData :=
  { model_name := mn, error := some e, is_multi_round := false,
    rounds := none, all_rounds_correct := none, is_correct := some false,
    model_answer := "", extracted_answer := "", is_from_box := false,
    answer_for_judge := "", reasoning := "", response_time := 0,
    judge_time := 0, total_response_time := none, total_judge_time := none,
    raw_response := none }

/-- Modelled from the spec: the repository's judge module
(`evaluate_py/judge.py`) is imported by `evaluator.py` but is not among the
provided sources.  Per the spec (§4.4), `judge_answer` calls the external
judging capability, retrying up to a configured bound with exponential
backoff between attempts, and exhausting the retries surfaces a typed
failure (a raised exception) to the caller.  The successive outcomes the
external judge service would produce are supplied as a list; the first
successful outcome within the retry bound is returned, and if every attempt
within the bound fails the typed failure is raised. -/
def judge_answer (attempts : List (Except String (Bool × String × ℚ)))
    (max_retries : Nat) : Except String (Bool × String × ℚ) :=
  match (attempts.take max_retries).findSome? (fun a =>
      match a with
      | .ok v => some v
      | .error _ => none) with
  | some v => .ok v
  | none => .error "judge retries exhausted"

/-- Embeds `evaluator.eval_single_model` (the single-round per-model body):
call the model, extract the answer, judge the extracted answer when it is
structured and the full original response otherwise; any exception from
either call yields the error entry. -/
def eval_single_model
    (jloads : List Char → Option (List (String × String)))
    (modelCall : Except String (String × ℚ × Option RawResponse))
    (judgeCall : String → Except String (Bool × String × ℚ))
    (mn : String) : EvalModelData :=
  match modelCall with
  | .error e => errorModelData mn e
  | .ok (model_answer, rt, raw) =>
      let ext := extract_answer_from_response jloads model_answer.data
      let extracted := String.mk ext.1
      let is_from_box := ext.2.1
      let original := String.mk ext.2.2
      let answer_for_judge := if !is_from_box then original else extracted
      match judgeCall answer_for_judge with
      | .error e => errorModelData mn e
      | .ok (is_correct, reasoning, jt) =>
          { model_name := mn, error := none, is_multi_round := false,
            rounds := none, all_rounds_correct := none,
            is_correct := some is_correct, model_answer := model_answer,
            extracted_answer := extracted, is_from_box := is_from_box,
            answer_for_judge := answer_for_judge, reasoning := reasoning,
            response_time := rt, judge_time := jt,
            total_response_time := none, total_judge_time := none,
            raw_response := raw }

/-- The inputs of one round of the multi-round loop: the round key, the
round's question and reference answer, and the outcomes of the external
model and judge calls for this round. -/
structure RoundCallSpec : Type where
  round_key : String
  question : String
  gt_answer : String
  modelCall : Except String (String × ℚ × Option RawResponse)
  judgeCall : String → Except String (Bool × String × ℚ)

/-- Embeds one iteration of the multi-round loop of
`evaluate_single_item` for one model: returns the stored round record plus
the contributions to `total_response_time` (added right after a successful
model call, even when the judge then fails) and `total_judge_time` (added
only after a successful judge call). -/
def run_round (jloads : List Char → Option (List (String × String)))
    (mn : String) (r : RoundCallSpec) : EvalRoundData × ℚ × ℚ :=
  match r.modelCall with
  | .error e => (errorRoundData r.round_key r.question r.gt_answer mn e, 0, 0)
  | .ok (model_answer, rt, raw) =>
      let ext := extract_answer_from_response jloads model_answer.data
      let extracted := String.mk ext.1
      let is_from_box := ext.2.1
      let original := String.mk ext.2.2
      let answer_for_judge := if !is_from_box then original else extracted
      match r.judgeCall answer_for_judge with
      | .error e => (errorRoundData r.round_key r.question r.gt_answer mn e, rt, 0)
      | .ok (is_correct, reasoning, jt) =>
          ({ round := r.round_key, question := r.question, answer := r.gt_answer,
             model_name := mn, error := none, model_answer := model_answer,
             extracted_answer := extracted, is_from_box := is_from_box,
             answer_for_judge := answer_for_judge, is_correct := is_correct,
             reasoning := reasoning, response_time := rt, judge_time := jt,
             raw_response := raw }, rt, jt)

/-- Embeds the per-model summary loop of `evaluate_single_item`
(lines 526-561): collect the model's round records (the loop always finds
one record per round, the exception handler included) and fold
`model_all_correct`, which starts `True` and is set `False` by every round
whose `is_correct` is false. -/
def summarize_model_rounds (mn : String) (rounds_data : List EvalRoundData)
    (total_rt total_jt : ℚ) : EvalModelData :=
  let model_all_correct :=
    rounds_data.foldl (fun acc r => if !r.is_correct then false else acc) true
  { model_name := mn, error := none, is_multi_round := true,
    rounds := some rounds_data, all_rounds_correct := some model_all_correct,
    is_correct := some model_all_correct, model_answer := "",
    extracted_answer := "", is_from_box := false, answer_for_judge := "",
    reasoning := "", response_time := 0, judge_time := 0,
    total_response_time := some total_rt, total_judge_time := some total_jt,
    raw_response := none }

/-- Embeds the whole multi-round evaluation of one model: run every round in
order, then summarize. -/
def eval_multi_round_model
    (jloads : List Char → Option (List (String × String)))
    (mn : String) (rounds : List RoundCallSpec) : EvalModelData :=
  let outs := rounds.map (run_round jloads mn)
  summarize_model_rounds mn (outs.map (fun o => o.1))
    (outs.foldl (fun acc o => acc + o.2.1) 0)
    (outs.foldl (fun acc o => acc + o.2.2) 0)

/-! ## `result_converter.py` : conversion to the `module2` format -/

/-- Association-list assignment with Python dict semantics: replace in place
when the key exists, append otherwise. -/
def aset {α : Type} (m : List (String × α)) (k : String) (v : α) :
    List (String × α) :=
  if (alookup m k).isSome then areplace m k v else m ++ [(k, v)]

/-- The `comparison.agreement_with_gt` computation of
`convert_to_module2_format` (lines 214-225): for a multi-round item with a
dict `match_gt`, 1 iff all rounds are correct (an empty dict is not
correct); otherwise the truthiness of `match_gt`. -/
def compute_agreement (is_multi_round : Bool) (mg : MatchGT) : Nat :=
  match is_multi_round, mg with
  | true, .mdict m => if allRoundsTrue m then 1 else 0
  | false, .mdict m => if !m.isEmpty then 1 else 0
  | _, .mbool b => if b then 1 else 0

/-- The per-round extraction step of `convert_to_module2_format`: an errored
round contributes empty answer/process, a false verdict and empty reasoning;
a normal round contributes its extracted answer (falling back to the round's
reference answer when the extraction is empty), its rebuilt process text,
its verdict and its judge reasoning.  A round record with an empty `round`
key is keyed `"round"` (the key-name inference of lines 66-77 always lands
on the literal `round` field name). -/
def convertRoundStep
    (acc : List (String × String) × List (String × String) ×
      List (String × Bool) × List (String × String))
    (rd : EvalRoundData) :
    List (String × String) × List (String × String) ×
      List (String × Bool) × List (String × String) :=
  let round_key := if rd.round != "" then rd.round else "round"
  let ra := if rd.error.isSome then ""
    else if rd.extracted_answer != "" then rd.extracted_answer else rd.answer
  let rp := if rd.error.isSome then ""
    else build_process_value rd.model_answer rd.raw_response
  let rc := if rd.error.isSome then false else rd.is_correct
  let rr := if rd.error.isSome then "" else rd.reasoning
  (aset acc.1 round_key ra, aset acc.2.1 round_key rp,
   aset acc.2.2.1 round_key rc, aset acc.2.2.2 round_key rr)

/-- The evaluation result of one item as produced by
`evaluate_single_item`: metadata plus per-profile, per-model records. -/
structure EvalResult : Type where
  question_id : String
  question : QA
  answer : QA
  question_type : String
  image_type : String
  image_paths : List String
  options : Option AnswerValue
  is_multi_round : Bool
  profiles : List (String × List (String × EvalModelData))
  cats : List (String × String)

/-- Embeds `result_converter.convert_to_module2_format`: produce the
`module2` record for one `(model, profile)` from an evaluation result.
`None` when the profile has no record for the model.  An error entry (single
round or per round) yields empty answer/process fields and a false verdict —
the error text reaches no answer field.  (The `_rounds_info` helper field,
which no embedded reader consults, is omitted.) -/
def convert_to_module2_format (result : EvalResult) (model_name profile : String) :
    Option Module2Item :=
  let profile_data := (alookup result.profiles profile).getD []
  match alookup profile_data model_name with
  | none => none
  | some md =>
      let model_answer := md.model_answer
      let extracted_answer := md.extracted_answer
      let is_multi := result.is_multi_round
      let rounds_list := md.rounds.getD []
      let core :=
        if is_multi && !rounds_list.isEmpty then
          let dicts := rounds_list.foldl convertRoundStep ([], [], [], [])
          if !dicts.1.isEmpty then
            (AnswerValue.adict (dicts.1.map (fun kv => (kv.1, .astr kv.2))),
             AnswerValue.adict (dicts.2.1.map (fun kv => (kv.1, .astr kv.2))),
             MatchGT.mdict dicts.2.2.1,
             AnswerValue.adict (dicts.2.2.2.map (fun kv => (kv.1, .astr kv.2))))
          else
            match rounds_list.getLast? with
            | some last =>
                let fallback_answer :=
                  if last.extracted_answer != "" then last.extracted_answer
                  else last.answer
                let fallback_process := last.model_answer
                (AnswerValue.astr fallback_answer,
                 AnswerValue.astr fallback_process,
                 MatchGT.mbool last.is_correct,
                 AnswerValue.astr last.reasoning)
            | none =>
                (AnswerValue.astr (if extracted_answer != "" then extracted_answer else ""),
                 AnswerValue.astr (build_process_value model_answer md.raw_response),
                 MatchGT.mbool ((md.is_correct.getD false) || (md.all_rounds_correct.getD false)),
                 AnswerValue.astr md.reasoning)
        else
          if md.error.isSome then
            (AnswerValue.astr "", AnswerValue.astr "", MatchGT.mbool false,
             AnswerValue.astr "")
          else
            (AnswerValue.astr (if extracted_answer != "" then extracted_answer else ""),
             AnswerValue.astr (build_process_value model_answer md.raw_response),
             MatchGT.mbool ((md.is_correct.getD false) || (md.all_rounds_correct.getD false)),
             AnswerValue.astr md.reasoning)
      let response_time_value :=
        if is_multi && md.total_response_time.isSome then
          md.total_response_time.getD 0
        else md.response_time
      let entry : ModelEntry :=
        { model_name := model_name, answer := core.1, process := core.2.1,
          response_time := response_time_value, match_gt := core.2.2.1,
          judge_reasoning := core.2.2.2 }
      let extraCats :=
        ["scenario", "capability", "difficulty", "source", "language"].filterMap
          (fun f => (alookup result.cats f).map (fun v => (f, v)))
      some
        { question_id := result.question_id, profile := some profile,
          question := result.question, answer := result.answer,
          image_path := result.image_paths, options := result.options,
          models := [("model", entry)],
          cats := [("question_type", result.question_type),
                   ("image_type", result.image_type)] ++ extraCats,
          agreement_with_gt := compute_agreement is_multi core.2.2.1 }

/-! ## `evaluator.py` / `model_api.py` : conversation construction and media
attachment

One content part of a chat message is text or an image reference; the
base64 data URL built for a local file is abstracted to the file's path
(only the presence of image parts matters to the embedded checks). -/

/-- One content part of a chat message. -/
inductive Part : Type where
  | ptext (s : String) : Part
  | pimage (url : String) : Part

/-- A chat message: role (`"user"` / `"assistant"`) plus ordered content
parts (an assistant message's plain-string content is a single text
part). -/
structure Msg : Type where
  role : String
  content : List Part

/-- Classification of one image path: a remote URL, an existing local file,
or a missing local file. -/
inductive ImgKind : Type where
  | iurl : ImgKind
  | ifile : ImgKind
  | imissing : ImgKind

/-- The per-path attachment behavior shared by the builders: URLs are
attached as is, existing files as encoded data URLs (abstracted to the
path), missing files are skipped with a warning. -/
def partForImage (avail : String → ImgKind) (path : String) : Option Part :=
  match avail path with
  | .iurl => some (.pimage path)
  | .ifile => some (.pimage path)
  | .imissing => none

/-- The image parts appended for a path list. -/
def imageParts (avail : String → ImgKind) (paths : List String) : List Part :=
  paths.filterMap (partForImage avail)

/-- Tests whether a part is an image reference. -/
def partIsImage : Part → Bool
  | .pimage _ => true
  | .ptext _ => false

/-- Tests whether a message carries an image part (`any(item.get("type") ==
"image_url" ...)`). -/
def msgHasImage (m : Msg) : Bool := m.content.any partIsImage

/-- The `has_image_in_history` check of the multi-round loop: some user
message carries an image part. -/
def historyHasUserImage (msgs : List Msg) : Bool :=
  msgs.any (fun m => m.role == "user" && msgHasImage m)

/-- Number of messages of a conversation that carry any image part. -/
def countImageMsgs (msgs : List Msg) : Nat :=
  (msgs.filter msgHasImage).length

/-- Embeds the `messages is not None` branch of `model_api.call_model_api`
(lines 349-413): when image paths are supplied and the first message is a
user message without an image part, the images are appended to that first
message's content; otherwise the messages are sent unchanged.  The first
message is shared with the caller's history list, so the patch is visible
to the caller. -/
def call_model_api_messages (avail : String → ImgKind) (paths : List String)
    (msgs : List Msg) : List Msg :=
  if paths.isEmpty then msgs
  else
    match msgs with
    | [] => []
    | m :: rest =>
        if m.role == "user" && !msgHasImage m then
          { m with content := m.content ++ imageParts avail paths } :: rest
        else m :: rest

/-- Embeds the `prompt` branch of `model_api.call_model_api`: a single user
message holding the images (when any) followed by the prompt text. -/
def call_model_api_prompt (avail : String → ImgKind) (paths : List String)
    (prompt : String) : List Msg :=
  [{ role := "user", content := imageParts avail paths ++ [.ptext prompt] }]

/-- The inputs of one round that the message construction consumes: the full
prompt, the simplified question text kept in history, and the extracted
answer / original response used for the brief history answer. -/
structure BuilderRound : Type where
  prompt : String
  question_text : String
  extracted_answer : String
  original_response : String

/-- The brief assistant answer appended to history: the extracted answer
when non-blank, else the last 300 characters of the original response. -/
def brief_answer_for_history (extracted original : String) : String :=
  if !extracted.isEmpty && !isBlankStr extracted then extracted
  else String.mk (original.data.drop (original.data.length - 300))

/-- Embeds one round of the conversation construction of
`evaluate_single_item` (lines 298-421): copy the history; attach the images
to the current user turn only when no user turn of the history carries any;
send through `call_model_api` (whose first-message patch aliases the
history's head); then append the compacted `(user, assistant)` pair, the
user part carrying the current turn's image parts only when the (possibly
patched) history still has none.  Returns the messages sent to the API and
the new history. -/
def conversationRoundStep (avail : String → ImgKind) (paths : List String)
    (r : BuilderRound) (history : List Msg) : List Msg × List Msg :=
  let has_image_in_history := historyHasUserImage history
  let imgs :=
    if !has_image_in_history && !paths.isEmpty then imageParts avail paths else []
  let current : Msg := { role := "user", content := imgs ++ [.ptext r.prompt] }
  let messagesSent := call_model_api_messages avail paths (history ++ [current])
  let patchedHistory := messagesSent.take history.length
  let currentAfter := (messagesSent.drop history.length).headD current
  let has_image_in_conv := historyHasUserImage patchedHistory
  let simplifiedImgs :=
    if !has_image_in_conv && !paths.isEmpty then
      currentAfter.content.filter partIsImage
    else []
  let simplified : Msg :=
    { role := "user", content := simplifiedImgs ++ [.ptext r.question_text] }
  let assistantMsg : Msg :=
    { role := "assistant",
      content := [.ptext (brief_answer_for_history r.extracted_answer
        r.original_response)] }
  (messagesSent, patchedHistory ++ [simplified, assistantMsg])

/-- Runs the multi-round conversation construction from an empty history,
collecting every outgoing message list and the final history. -/
def runConversation (avail : String → ImgKind) (paths : List String)
    (rounds : List BuilderRound) : List (List Msg) × List Msg :=
  rounds.foldl (fun acc r =>
    let out := conversationRoundStep avail paths r acc.2
    (acc.1 ++ [out.1], out.2)) ([], [])

/-! ## Statement-level predicates

The predicates below are used only to state the verified properties; they
are not part of the embedded code. -/

/-- A scoring unit's answer is empty in the sense of the specification:
null, a string with no non-whitespace characters, or a per-round map all of
whose present entries are null or blank (missing entries being empty by
default). -/
def answerValueEmptyUnit : AnswerValue → Bool
  | .anull => true
  | .astr s => isBlankStr s
  | .adict am =>
      am.all (fun kv =>
        match kv.2 with
        | .anull => true
        | .astr s => isBlankStr s
        | _ => false)
  | .aother _ => false

/-- A record all of whose model entries have empty answers. -/
def emptyAnswerRecord (c : Module2Item) : Bool :=
  c.models.all (fun p => answerValueEmptyUnit p.2.answer)

/-- Invariant of the `_deduplicate_results` accumulator: keys are distinct,
every stored record's question id is its key, keys are non-empty, and the
stored flag is the record's valid-answer bit. -/
def DedupInv (models : List String)
    (acc : List (String × Module2Item × Bool)) : Prop :=
  (acc.map Prod.fst).Nodup ∧
  ∀ e ∈ acc, e.2.1.question_id = e.1 ∧ e.1 ≠ "" ∧
    itemHasValidAnswer models e.2.1 = e.2.2

/-- The intended outcome of the dedup fold for one question id, given the
state the id starts in: once a record with a non-empty answer is kept it
stays; while only an empty record is kept, the first incoming record with a
non-empty answer replaces it; an unseen id keeps its first record, flagged
by whether it has a non-empty answer. -/
def dedupLookupSpec (models : List String) (items : List Module2Item)
    (id : String) (start : Option (Module2Item × Bool)) :
    Option (Module2Item × Bool) :=
  let filtered := items.filter (fun it => it.question_id == id)
  match start with
  | some (x, true) => some (x, true)
  | some (x, false) =>
      match filtered.find? (itemHasValidAnswer models) with
      | some y => some (y, true)
      | none => some (x, false)
  | none =>
      match filtered.find? (itemHasValidAnswer models) with
      | some y => some (y, true)
      | none =>
          match filtered with
          | [] => none
          | x :: _ => some (x, false)

/-- The key under which the converter stores a round record. -/
def convertRoundKey (rd : EvalRoundData) : String :=
  if rd.round != "" then rd.round else "round"

/-- The answer text the converter stores for a round record. -/
def convertRoundAnswer (rd : EvalRoundData) : String :=
  if rd.error.isSome then ""
  else if rd.extracted_answer != "" then rd.extracted_answer else rd.answer

/-- The verdict the converter stores for a round record. -/
def convertRoundCorrect (rd : EvalRoundData) : Bool :=
  if rd.error.isSome then false else rd.is_correct

/-! ## `main.py` : fair-share scheduler arithmetic (lines 474-525) -/

/-- The worker allocation computed in `main.main`. -/
structure SchedulerPlan : Type where
  per_combo_workers : Nat
  combo_workers : Nat
  actual_per_combo : Nat
  actual_total_workers : Nat
  unused : Nat
  warn_unused : Bool
deriving DecidableEq

/-- The fair-share allocation of `main.main`: `per_combo = max(1, W // C)`;
if `per_combo * C <= W` all `C` combinations run concurrently with
`per_combo` inner workers each, otherwise the number of simultaneously
active combinations is reduced; unused capacity is reported as a warning. -/
def scheduler_plan (workers num_combos : Nat) : SchedulerPlan :=
  let per_combo := max 1 (workers / num_combos)
  if per_combo * num_combos ≤ workers then
    { per_combo_workers := per_combo
      combo_workers := num_combos
      actual_per_combo := per_combo
      actual_total_workers := num_combos * per_combo
      unused := workers - num_combos * per_combo
      warn_unused := num_combos * per_combo < workers }
  else
    let cw := max 1 (workers / per_combo)
    let apc := max 1 (workers / cw)
    { per_combo_workers := per_combo
      combo_workers := cw
      actual_per_combo := apc
      actual_total_workers := cw * apc
      unused := workers - cw * apc
      warn_unused := cw * apc < workers }

/-! ## Expected converter outputs (statement-level) -/

/-- The module-level entry the converter produces for a single-round
per-model failure: all answer fields empty, verdict false. -/
def errorConvertedEntry (mn : String) : ModelEntry :=
  { model_name := mn, answer := .astr "", process := .astr "",
    response_time := 0, match_gt := .mbool false,
    judge_reasoning := .astr "" }

/-- The record the converter produces for a single-round per-model
failure. -/
def errorConvertedItem (result : EvalResult) (mn p : String) : Module2Item :=
  { question_id := result.question_id, profile := some p,
    question := result.question, answer := result.answer,
    image_path := result.image_paths, options := result.options,
    models := [("model", errorConvertedEntry mn)],
    cats := [("question_type", result.question_type),
             ("image_type", result.image_type)] ++
      ["scenario", "capability", "difficulty", "source", "language"].filterMap
        (fun f => (alookup result.cats f).map (fun v => (f, v))),
    agreement_with_gt := 0 }

/-- The model entry the converter produces for a multi-round record with
round list `rl` and stored response time `rtv`. -/
def multiConvertedEntry (mn : String) (rl : List EvalRoundData) (rtv : ℚ) :
    ModelEntry :=
  let dicts := rl.foldl convertRoundStep ([], [], [], [])
  { model_name := mn,
    answer := .adict (dicts.1.map (fun kv => (kv.1, .astr kv.2))),
    process := .adict (dicts.2.1.map (fun kv => (kv.1, .astr kv.2))),
    response_time := rtv,
    match_gt := .mdict dicts.2.2.1,
    judge_reasoning := .adict (dicts.2.2.2.map (fun kv => (kv.1, .astr kv.2))) }

/-- The record the converter produces for a multi-round result. -/
def multiConvertedItem (result : EvalResult) (mn p : String)
    (rl : List EvalRoundData) (rtv : ℚ) : Module2Item :=
  { question_id := result.question_id, profile := some p,
    question := result.question, answer := result.answer,
    image_path := result.image_paths, options := result.options,
    models := [("model", multiConvertedEntry mn rl rtv)],
    cats := [("question_type", result.question_type),
             ("image_type", result.image_type)] ++
      ["scenario", "capability", "difficulty", "source", "language"].filterMap
        (fun f => (alookup result.cats f).map (fun v => (f, v))),
    agreement_with_gt :=
      compute_agreement true
        (.mdict (rl.foldl convertRoundStep ([], [], [], [])).2.2.1) }

/-! ## Concrete fixtures used by witnesses and counterexamples -/

/-- The nested-marker test input. -/
def nestedMarkerInput : List Char := "\\boxed\x7bA\\boxed\x7bB\x7dC\x7d".data

/-- The expected nested-marker extraction. -/
def nestedMarkerOutput : List Char := "A\\boxed\x7bB\x7dC".data

/-- A long unstructured response (500 characters). -/
def longResponse : List Char := List.replicate 500 'a'

/-- A minimal single-round record used by several witnesses ("question q1
answered A by model m, judged correct"). -/
def witnessEntry : ModelEntry :=
  { model_name := "m", answer := .astr "A", process := .astr "A",
    response_time := 1, match_gt := .mbool true, judge_reasoning := .astr "ok" }

/-- A stored record holding `witnessEntry`. -/
def witnessItem : Module2Item :=
  { question_id := "q1", profile := some "p", question := .qstr "q",
    answer := .qstr "A", image_path := [], options := none,
    models := [("model", witnessEntry)], cats := [("question_type", "单选题")],
    agreement_with_gt := 1 }

/-- A store state with one buffered record. -/
def witnessStore : StoreState :=
  { disk := none, temp := none, buffer := [witnessItem] }

/-- A three-round entry with verdicts true/true/false and all rounds
answered. -/
def witnessRound3 : ModelEntry :=
  { model_name := "m",
    answer := .adict
      [("round1", .astr "A"), ("round2", .astr "B"), ("round3", .astr "C")],
    process := .adict [], response_time := 1,
    match_gt := .mdict [("round1", true), ("round2", true), ("round3", false)],
    judge_reasoning := .adict [] }

/-- One evaluator round record with the given key and verdict, everything
else trivial. -/
def mkWitnessRound (k : String) (ok : Bool) : EvalRoundData :=
  { round := k, question := "q", answer := "A", model_name := "m",
    error := none, model_answer := "A", extracted_answer := "A",
    is_from_box := true, answer_for_judge := "A", is_correct := ok,
    reasoning := "r", response_time := 1, judge_time := 1,
    raw_response := none }

/-- Three evaluator round records with verdicts true/true/false. -/
def witnessThreeRounds : List EvalRoundData :=
  [mkWitnessRound "round1" true, mkWitnessRound "round2" true,
   mkWitnessRound "round3" false]

/-- A single-round evaluation result whose only model entry is a per-model
failure. -/
def c10Result : EvalResult :=
  { question_id := "q9", question := .qstr "q", answer := .qstr "A",
    question_type := "问答题", image_type := "", image_paths := [],
    options := none, is_multi_round := false,
    profiles := [("p", [("m", errorModelData "m" "boom")])], cats := [] }

/-- A two-round list whose second round failed. -/
def c10MultiRounds : List EvalRoundData :=
  [mkWitnessRound "round1" true, errorRoundData "round2" "q" "B" "m" "boom"]

/-- The summarized model data of the two-round list. -/
def c10MultiData : EvalModelData :=
  summarize_model_rounds "m" c10MultiRounds 1 1

/-- A multi-round evaluation result whose second round failed. -/
def c10MultiResult : EvalResult :=
  { question_id := "q8", question := .qmap [("round1", "q"), ("round2", "q")],
    answer := .qmap [("round1", "A"), ("round2", "B")],
    question_type := "多轮问答题", image_type := "", image_paths := [],
    options := none, is_multi_round := true,
    profiles := [("p", [("m", c10MultiData)])], cats := [] }

/-- A two-round entry whose second round has no answer-map entry. -/
def witnessMultiEntry : ModelEntry :=
  { model_name := "m", answer := .adict [("round1", .astr "A")],
    process := .adict [("round1", .astr "A")], response_time := 1,
    match_gt := .mdict [("round1", true), ("round2", false)],
    judge_reasoning := .adict [] }

/-- A duplicate record for `q1` whose answer is empty (a placeholder left by
a batch write: positive response time, blank answer). -/
def emptyDupItem : Module2Item :=
  { question_id := "q1", profile := some "p", question := .qstr "q",
    answer := .qstr "A", image_path := [], options := none,
    models := [("model",
      { model_name := "m", answer := .astr "", process := .astr "x",
        response_time := 1, match_gt := .mbool false,
        judge_reasoning := .astr "" })],
    cats := [("question_type", "单选题")], agreement_with_gt := 0 }

/-- The conversation-construction invariant: the history is empty, or its
head is a user turn, only the head may carry image parts, and if even the
head carries none then the task's paths contribute no attachable image
parts at all (so nothing is ever attached). -/
def ConvInv (avail : String → ImgKind) (paths : List String) :
    List Msg → Prop
  | [] => True
  | m :: t => m.role = "user" ∧ (∀ x ∈ t, msgHasImage x = false) ∧
      (msgHasImage m = false → imageParts avail paths = [])

/-- An image-availability oracle under which every path is an existing
file. -/
def c9Avail : String → ImgKind := fun s => .ifile

/-- A two-round conversation plan. -/
def c9Rounds : List BuilderRound :=
  [{ prompt := "p1", question_text := "q1", extracted_answer := "A",
     original_response := "r1" },
   { prompt := "p2", question_text := "q2", extracted_answer := "B",
     original_response := "r2" }]

/-- A user message that already carries an image part. -/
def c9ImgMsg : Msg :=
  { role := "user", content := [.pimage "img", .ptext "x"] }

/-- A judge call whose every attempt fails, so `judge_answer` exhausts its
retry bound. -/
def c4JudgeFail : String → Except String (Bool × String × ℚ) :=
  fun j => judge_answer [.error "judge timeout", .error "judge timeout",
    .error "judge timeout"] 3

/-- A `json.loads` oracle that parses nothing. -/
def c4NoJson : List Char → Option (List (String × String)) := fun t => none

/-- A two-round call plan: round 1 is answered and judged correct, round 2
is answered but every judge attempt fails. -/
def c4Rounds : List RoundCallSpec :=
  [{ round_key := "round1", question := "q1", gt_answer := "A",
     modelCall := .ok ("\\boxed\x7bA\x7d", 1, none),
     judgeCall := fun s => .ok (true, "ok", 1) },
   { round_key := "round2", question := "q2", gt_answer := "B",
     modelCall := .ok ("\\boxed\x7bB\x7d", 1, none),
     judgeCall := c4JudgeFail }]

/-- The stored model record of the two-round plan. -/
def c4ModelData : EvalModelData := eval_multi_round_model c4NoJson "m" c4Rounds

/-- A multi-round evaluation result whose second round's judge exhausted its
retries while the first round was answered and correct. -/
def c4Result : EvalResult :=
  { question_id := "q4", question := .qmap [("round1", "q1"), ("round2", "q2")],
    answer := .qmap [("round1", "A"), ("round2", "B")],
    question_type := "多轮问答题", image_type := "", image_paths := [],
    options := none, is_multi_round := true,
    profiles := [("p", [("m", c4ModelData)])], cats := [] }

/-! ### Theorems -/

/-- **C8.** For every worker budget `W ≥ 1` and combination count `C ≥ 1`,
the scheduler allocates `per_combo = max(1, ⌊W / C⌋)` inner workers per
combination; whenever `per_combo * C ≤ W` all `C` combinations run
concurrently with `per_combo` workers each, the effective total is
`C * per_combo`, and the unused capacity `W - C * per_combo` is reported
as a (non-fatal) warning exactly when it is positive.  In particular
`W = 10, C = 3` gives 3 workers per combination, 3 concurrent combinations,
effective total 9 and 1 unit of unused capacity reported. -/
theorem scheduler_fair_share (W C : Nat) (hW : 1 ≤ W) (hC : 1 ≤ C)
    (hfit : max 1 (W / C) * C ≤ W) :
    (scheduler_plan W C).per_combo_workers = max 1 (W / C) ∧
    (scheduler_plan W C).combo_workers = C ∧
    (scheduler_plan W C).actual_per_combo = max 1 (W / C) ∧
    (scheduler_plan W C).actual_total_workers = C * max 1 (W / C) ∧
    (scheduler_plan W C).unused = W - C * max 1 (W / C) ∧
    ((scheduler_plan W C).warn_unused = true ↔ 0 < (scheduler_plan W C).unused) ∧
    scheduler_plan 10 3 =
      { per_combo_workers := 3, combo_workers := 3, actual_per_combo := 3,
        actual_total_workers := 9, unused := 1, warn_unused := true } := by
  refine ⟨?_, ?_, ?_, ?_, ?_, ?_, by decide⟩ <;>
    simp only [scheduler_plan, if_pos hfit]
  rw [decide_eq_true_iff]
  exact tsub_pos_iff_lt.symm

/-- **C3.** Every rewrite of an output artifact writes the complete
replacement and installs it atomically: on a temporary-file write failure,
`flush_json_buffer` leaves the original artifact untouched, retains the
in-memory buffer for a later flush attempt, removes the temporary file and
reports an error; on success the target holds the complete replacement (all
previous records followed by the buffered ones, with freshly recomputed
statistics) and the buffer is cleared.  In every case the target path holds
either the old artifact or the complete replacement — never a partial
write.  The final statistics rewrite of `main.main` obeys the same
discipline. -/
theorem atomic_replace_write_discipline (cbr : Bool) (models : List String)
    (st : StoreState) (h : st.buffer ≠ []) :
    flush_json_buffer cbr models false st =
      ({ disk := st.disk, temp := none, buffer := st.buffer }, true) ∧
    (flush_json_buffer cbr models true st).1.disk =
      some { statistics := calculate_output_statistics cbr models
               ((st.disk.getD emptyArtifact).results ++ st.buffer)
             results := (st.disk.getD emptyArtifact).results ++ st.buffer } ∧
    (flush_json_buffer cbr models true st).1.buffer = [] ∧
    (∀ ok : Bool, (flush_json_buffer cbr models ok st).1.disk = st.disk ∨
      (flush_json_buffer cbr models ok st).1.disk =
        some { statistics := calculate_output_statistics cbr models
                 ((st.disk.getD emptyArtifact).results ++ st.buffer)
               results := (st.disk.getD emptyArtifact).results ++ st.buffer }) ∧
    (∀ disk : Artifact,
      final_statistics_rewrite cbr models false disk = (disk, true)) ∧
    (∀ disk : Artifact, final_statistics_rewrite cbr models true disk =
      ({ statistics := calculate_output_statistics cbr models disk.results
         results := disk.results }, false)) := by
  have hB : st.buffer.isEmpty = false := by
    cases hbuf : st.buffer with
    | nil => exact absurd hbuf h
    | cons a t => simp
  refine ⟨?_, ?_, ?_, ?_, ?_, ?_⟩
  · simp [flush_json_buffer, hB]
  · simp [flush_json_buffer, hB]
  · simp [flush_json_buffer, hB]
  · intro ok
    cases ok with
    | false => exact Or.inl (by simp [flush_json_buffer, hB])
    | true => exact Or.inr (by simp [flush_json_buffer, hB])
  · intro disk
    simp [final_statistics_rewrite]
  · intro disk
    simp [final_statistics_rewrite]

/-- Witness for `atomic_replace_write_discipline` at a one-record buffer. -/
theorem atomic_replace_write_discipline_witness :
    (witnessStore.buffer ≠ []) ∧
    flush_json_buffer false ["m"] false witnessStore =
      ({ disk := witnessStore.disk, temp := none,
         buffer := witnessStore.buffer }, true) ∧
    (flush_json_buffer false ["m"] true witnessStore).1.buffer = [] := by
  have h := atomic_replace_write_discipline false ["m"] witnessStore
    (by simp [witnessStore])
  exact ⟨by simp [witnessStore], h.1, h.2.2.1⟩

/-- **C5.** The structured-marker stage matches balanced nested braces: the
input with a nested marker yields the full outer content, flagged
structured, whatever the JSON decoder would do (stage 2 is never
reached). -/
theorem nested_marker_extraction :
    extract_boxed_content nestedMarkerInput = some nestedMarkerOutput ∧
    ∀ jloads, extract_answer_from_response jloads nestedMarkerInput =
      (nestedMarkerOutput, true, nestedMarkerInput) := by
  refine ⟨rfl, fun jloads => ?_⟩
  rfl

/-- **C6.** Observed behavior of the trailing-window stage on a long
unstructured response: the first shrink step of `truncate_last_n_tokens`
keeps only the last tenth of the 400-character window (`text[int(len *
0.9):]`), so a 500-character response is truncated to its last 40
characters, an estimated 11 tokens — not a window of approximately 100
tokens shrunk by about ten percent per step (that procedure would keep 360
characters, an estimated 91 tokens, as the code's own comment describes).
The result is still a trailing slice flagged unstructured. -/
theorem trailing_window_code_behavior :
    truncate_last_n_tokens longResponse 100 = List.replicate 40 'a' ∧
    estimate_text_tokens (List.replicate 40 'a') = 11 ∧
    (∀ jloads, extract_answer_from_response jloads longResponse =
      (List.replicate 40 'a', false, longResponse)) ∧
    estimate_text_tokens (List.replicate 360 'a') = 91 := by
  refine ⟨rfl, rfl, fun jloads => ?_, rfl⟩
  rfl

/-! ### Association-list lemmas -/

theorem alookup_append {α : Type} (m1 m2 : List (String × α)) (k : String) :
    alookup (m1 ++ m2) k =
      match alookup m1 k with
      | some v => some v
      | none => alookup m2 k := by
  induction m1 with
  | nil => simp [alookup]
  | cons e t ih =>
      obtain ⟨k', v⟩ := e
      simp only [List.cons_append, alookup]
      split
      · rfl
      · exact ih

theorem alookup_areplace_self {α : Type} (m : List (String × α)) (k : String)
    (v : α) (h : (alookup m k).isSome) :
    alookup (areplace m k v) k = some v := by
  induction m with
  | nil => simp [alookup] at h
  | cons e t ih =>
      obtain ⟨k', v'⟩ := e
      cases hk : k' == k with
      | true => simp [areplace, alookup, hk]
      | false =>
          have h' : (alookup t k).isSome := by simpa [alookup, hk] using h
          simp [areplace, alookup, hk, ih h']

theorem alookup_areplace_ne {α : Type} (m : List (String × α)) (k k' : String)
    (v : α) (h : k ≠ k') :
    alookup (areplace m k v) k' = alookup m k' := by
  induction m with
  | nil => simp [areplace]
  | cons e t ih =>
      obtain ⟨k0, v0⟩ := e
      cases hk : k0 == k with
      | true =>
          have hk0 : k0 = k := by simpa using hk
          have hne : (k0 == k') = false := by
            subst hk0
            exact beq_eq_false_iff_ne.mpr h
          simp [areplace, alookup, hk, hne]
      | false =>
          have hrw : areplace ((k0, v0) :: t) k v = (k0, v0) :: areplace t k v := by
            simp [areplace, hk]
          rw [hrw]
          simp only [alookup]
          split
          · rfl
          · exact ih

theorem areplace_map_fst {α : Type} (m : List (String × α)) (k : String) (v : α) :
    (areplace m k v).map Prod.fst = m.map Prod.fst := by
  induction m with
  | nil => rfl
  | cons e t ih =>
      obtain ⟨k0, v0⟩ := e
      cases hk : k0 == k <;> simp [areplace, hk, ih]

theorem mem_areplace {α : Type} {m : List (String × α)} {k : String} {v : α}
    {e : String × α} (he : e ∈ areplace m k v) : e ∈ m ∨ e = (k, v) := by
  induction m with
  | nil => simp [areplace] at he
  | cons e0 t ih =>
      obtain ⟨k0, v0⟩ := e0
      cases hk : k0 == k with
      | true =>
          have hk0 : k0 = k := by simpa using hk
          rw [areplace, if_pos hk] at he
          rcases List.mem_cons.mp he with h | h
          · right
            rw [h, hk0]
          · left
            exact List.mem_cons_of_mem _ h
      | false =>
          rw [areplace, if_neg (by simp [hk])] at he
          rcases List.mem_cons.mp he with h | h
          · left
            rw [h]
            exact List.mem_cons_self _ _
          · rcases ih h with h' | h'
            · left
              exact List.mem_cons_of_mem _ h'
            · right
              exact h'

theorem not_mem_keys_of_alookup_none {α : Type} {m : List (String × α)}
    {k : String} (h : alookup m k = none) : k ∉ m.map Prod.fst := by
  induction m with
  | nil => simp
  | cons e t ih =>
      obtain ⟨k0, v0⟩ := e
      cases hk : k0 == k with
      | true => simp [alookup, hk] at h
      | false =>
          have h' : alookup t k = none := by simpa [alookup, hk] using h
          have hk0 : k0 ≠ k := by simpa using hk
          simp only [List.map_cons, List.mem_cons]
          rintro (h1 | h1)
          · exact hk0 h1.symm
          · exact ih h' h1

/-! ### Lemmas about the dedup fold of `_deduplicate_results` -/

theorem dedupInv_nil (models : List String) : DedupInv models [] := by
  constructor
  · simp
  · intro e he
    simp at he

theorem dedupInv_step (models : List String)
    (acc : List (String × Module2Item × Bool)) (item : Module2Item)
    (h : DedupInv models acc) : DedupInv models (dedupStep models acc item) := by
  obtain ⟨hnd, hmem⟩ := h
  unfold dedupStep
  cases hq : item.question_id == "" with
  | true => simpa [hq] using ⟨hnd, hmem⟩
  | false =>
      simp only [hq, Bool.false_eq_true, if_false]
      cases hl : alookup acc item.question_id with
      | some p =>
          obtain ⟨x, b⟩ := p
          cases b with
          | true => exact ⟨hnd, hmem⟩
          | false =>
              cases hv : itemHasValidAnswer models item with
              | true =>
                  simp only [hv, if_true]
                  constructor
                  · rw [areplace_map_fst]
                    exact hnd
                  · intro e he
                    rcases mem_areplace he with h' | h'
                    · exact hmem e h'
                    · rw [h']
                      exact ⟨rfl, by simpa using hq, hv⟩
              | false => simpa [hv] using ⟨hnd, hmem⟩
      | none =>
          constructor
          · rw [List.map_append]
            refine List.Nodup.append hnd (by simp) ?_
            intro a ha hb
            simp only [List.map_cons, List.map_nil, List.mem_singleton] at hb
            exact not_mem_keys_of_alookup_none hl (hb ▸ ha)
          · intro e he
            rcases List.mem_append.mp he with h' | h'
            · exact hmem e h'
            · have : e = (item.question_id, item, itemHasValidAnswer models item) := by
                simpa using h'
              rw [this]
              exact ⟨rfl, by simpa using hq, rfl⟩

theorem dedupInv_foldl (models : List String) (items : List Module2Item) :
    DedupInv models (items.foldl (dedupStep models) []) := by
  have h : ∀ (l : List Module2Item) (acc : List (String × Module2Item × Bool)),
      DedupInv models acc → DedupInv models (l.foldl (dedupStep models) acc) := by
    intro l
    induction l with
    | nil => intro acc hacc; exact hacc
    | cons it rest ih =>
        intro acc hacc
        exact ih _ (dedupInv_step models acc it hacc)
  exact h items [] (dedupInv_nil models)

theorem dedupStep_lookup_other (models : List String)
    (acc : List (String × Module2Item × Bool)) (item : Module2Item)
    (id : String) (hne : (item.question_id == id) = false) :
    alookup (dedupStep models acc item) id = alookup acc id := by
  unfold dedupStep
  cases hq : item.question_id == "" with
  | true => simp [hq]
  | false =>
      simp only [hq, Bool.false_eq_true, if_false]
      cases hl : alookup acc item.question_id with
      | some p =>
          obtain ⟨x, b⟩ := p
          cases b with
          | true => rfl
          | false =>
              cases hv : itemHasValidAnswer models item with
              | true =>
                  simp only [hv, if_true]
                  exact alookup_areplace_ne _ _ _ _ (by simpa using hne)
              | false => simp [hv]
      | none =>
          rw [alookup_append]
          cases h2 : alookup acc id <;> simp [alookup, hne]

theorem dedup_fold_lookup (models : List String) (id : String) (hid : id ≠ "") :
    ∀ (items : List Module2Item) (acc : List (String × Module2Item × Bool)),
      DedupInv models acc →
      alookup (items.foldl (dedupStep models) acc) id =
        dedupLookupSpec models items id (alookup acc id) := by
  intro items
  induction items with
  | nil =>
      intro acc _
      simp only [List.foldl_nil, dedupLookupSpec, List.filter_nil]
      cases h : alookup acc id with
      | none => rfl
      | some p =>
          obtain ⟨x, b⟩ := p
          cases b <;> rfl
  | cons it rest ih =>
      intro acc hinv
      rw [List.foldl_cons, ih _ (dedupInv_step models acc it hinv)]
      cases hqid : it.question_id == id with
      | false =>
          rw [dedupStep_lookup_other models acc it id hqid]
          simp only [dedupLookupSpec, List.filter_cons, hqid, Bool.false_eq_true,
            if_false]
      | true =>
          have heq : it.question_id = id := by simpa using hqid
          have hq : (id == "") = false := beq_eq_false_iff_ne.mpr hid
          cases hl : alookup acc id with
          | some p =>
              obtain ⟨x, b⟩ := p
              cases b with
              | true =>
                  have hstep : dedupStep models acc it = acc := by
                    unfold dedupStep
                    rw [heq]
                    simp [hq, hl]
                  rw [hstep, hl]
                  simp [dedupLookupSpec]
              | false =>
                  cases hv : itemHasValidAnswer models it with
                  | true =>
                      have hstep : dedupStep models acc it =
                          areplace acc id (it, true) := by
                        unfold dedupStep
                        rw [heq]
                        simp [hq, hl, hv, hid]
                      rw [hstep,
                        alookup_areplace_self _ _ _ (by simp [hl])]
                      simp [dedupLookupSpec, List.filter_cons, hqid,
                        List.find?_cons, hv]
                  | false =>
                      have hstep : dedupStep models acc it = acc := by
                        unfold dedupStep
                        rw [heq]
                        simp [hq, hl, hv]
                      rw [hstep, hl]
                      simp [dedupLookupSpec, List.filter_cons, hqid,
                        List.find?_cons, hv]
          | none =>
              have hstep : dedupStep models acc it =
                  acc ++ [(id, it, itemHasValidAnswer models it)] := by
                unfold dedupStep
                rw [heq]
                simp [hq, hl, hid]
              have hlook : alookup (dedupStep models acc it) id =
                  some (it, itemHasValidAnswer models it) := by
                rw [hstep, alookup_append, hl]
                simp [alookup]
              rw [hlook]
              cases hv : itemHasValidAnswer models it with
              | true =>
                  simp [dedupLookupSpec, List.filter_cons, hqid,
                    List.find?_cons, hv]
              | false =>
                  simp only [dedupLookupSpec, List.filter_cons, hqid, if_true,
                    List.find?_cons, hv, Bool.false_eq_true, if_false]

theorem dedup_map_filter (models : List String)
    (acc : List (String × Module2Item × Bool)) (h : DedupInv models acc)
    (id : String) :
    ((acc.map (fun kv => kv.2.1)).filter
        (fun it => it.question_id == id && itemHasValidAnswer models it)) =
      (match alookup acc id with
       | some (x, true) => [x]
       | some (_, false) => []
       | none => []) := by
  induction acc with
  | nil => rfl
  | cons e t ih =>
      obtain ⟨k, x, b⟩ := e
      obtain ⟨hnd, hmem⟩ := h
      have hx := hmem (k, x, b) (List.mem_cons_self _ _)
      have hinvt : DedupInv models t :=
        ⟨(List.nodup_cons.mp hnd).2, fun e he => hmem e (List.mem_cons_of_mem _ he)⟩
      have hknot : k ∉ t.map Prod.fst := (List.nodup_cons.mp hnd).1
      cases hk : k == id with
      | true =>
          have hkid : k = id := by simpa using hk
          have htail : ((t.map (fun kv => kv.2.1)).filter
              (fun it => it.question_id == id && itemHasValidAnswer models it)) = [] := by
            rw [List.filter_eq_nil_iff]
            intro a ha
            obtain ⟨kv, hkv, rfl⟩ := List.mem_map.mp ha
            have hkv' := hmem kv (List.mem_cons_of_mem _ hkv)
            have hne : kv.2.1.question_id ≠ id := by
              rw [hkv'.1]
              intro hcon
              exact hknot (by
                rw [← hkid] at hcon
                exact hcon ▸ List.mem_map_of_mem Prod.fst hkv)
            simp [hne]
          have h1 : (x.question_id == id) = true := by
            rw [hx.1, hkid]
            exact beq_self_eq_true id
          cases hb : b with
          | true =>
              have h2 : itemHasValidAnswer models x = true := by
                rw [hx.2.2, hb]
              simp [alookup, hk, List.filter_cons, h1, h2, htail]
          | false =>
              have h2 : itemHasValidAnswer models x = false := by
                rw [hx.2.2, hb]
              simp [alookup, hk, List.filter_cons, h1, h2, htail]
      | false =>
          have h1 : (x.question_id == id) = false := by
            rw [hx.1]
            exact hk
          simp only [List.map_cons, List.filter_cons, h1, Bool.false_and,
            Bool.false_eq_true, if_false, alookup, hk]
          exact ih hinvt

/-- **C1.** The authoritative scoring set computed by
`_deduplicate_results`.  First conjunct: for every stored collection and
every question id, the deduplicated records with that id and a non-empty
answer are exactly the first stored record (by storage order) with a
non-empty answer — in particular, when every record for the id is empty,
none is authoritative.  Second conjunct: for two records of the same id, one
empty and one non-empty, in either storage order, the deduplicated set is
exactly the non-empty record. -/
theorem dedup_first_non_empty_wins (models : List String)
    (items : List Module2Item) (id : String) (hid : id ≠ "") :
    ((deduplicate_results models items).filter
        (fun it => it.question_id == id && itemHasValidAnswer models it)) =
      (((items.filter (fun it => it.question_id == id)).find?
          (itemHasValidAnswer models)).map (fun y => [y])).getD [] ∧
    ∀ r1 r2 : Module2Item, r1.question_id = id → r2.question_id = id →
      itemHasValidAnswer models r1 = false →
      itemHasValidAnswer models r2 = true →
      deduplicate_results models [r1, r2] = [r2] ∧
      deduplicate_results models [r2, r1] = [r2] := by
  constructor
  · unfold deduplicate_results
    rw [dedup_map_filter models _ (dedupInv_foldl models items) id,
      dedup_fold_lookup models id hid items [] (dedupInv_nil models)]
    unfold dedupLookupSpec
    cases hfind : (items.filter (fun it => it.question_id == id)).find?
        (itemHasValidAnswer models) with
    | some y => simp [alookup, hfind]
    | none =>
        cases hfil : items.filter (fun it => it.question_id == id) with
        | nil => simp [alookup, hfind, hfil]
        | cons a l =>
            rw [hfil] at hfind
            simp [alookup, hfind, hfil]
  · intro r1 r2 h1 h2 hv1 hv2
    have hq1 : (r1.question_id == "") = false := by
      rw [h1]
      exact beq_eq_false_iff_ne.mpr hid
    have hq2 : (r2.question_id == "") = false := by
      rw [h2]
      exact beq_eq_false_iff_ne.mpr hid
    have h12 : (r1.question_id == r2.question_id) = true := by
      rw [h1, h2]
      exact beq_self_eq_true id
    have h21 : (r2.question_id == r1.question_id) = true := by
      rw [h1, h2]
      exact beq_self_eq_true id
    constructor
    · have s1 : dedupStep models [] r1 = [(r1.question_id, r1, false)] := by
        unfold dedupStep
        simp [hq1, alookup, hv1]
      have s2 : dedupStep models [(r1.question_id, r1, false)] r2 =
          [(r1.question_id, r2, true)] := by
        have hE : r1.question_id = r2.question_id := by rw [h1, h2]
        unfold dedupStep
        simp [hq2, alookup, hE, hv2, areplace]
      unfold deduplicate_results
      rw [List.foldl_cons, List.foldl_cons, List.foldl_nil, s1, s2]
      rfl
    · have s1 : dedupStep models [] r2 = [(r2.question_id, r2, true)] := by
        unfold dedupStep
        simp [hq2, alookup, hv2]
      have s2 : dedupStep models [(r2.question_id, r2, true)] r1 =
          [(r2.question_id, r2, true)] := by
        have hE : r2.question_id = r1.question_id := by rw [h1, h2]
        unfold dedupStep
        simp [hq1, alookup, hE, hv1]
      unfold deduplicate_results
      rw [List.foldl_cons, List.foldl_cons, List.foldl_nil, s1, s2]
      rfl

/-- Witness for `dedup_first_non_empty_wins`: an empty and a non-empty
record for `q1`, in both storage orders. -/
theorem dedup_first_non_empty_wins_witness :
    (("q1" : String) ≠ "" ∧ emptyDupItem.question_id = "q1" ∧
      witnessItem.question_id = "q1" ∧
      itemHasValidAnswer ["m"] emptyDupItem = false ∧
      itemHasValidAnswer ["m"] witnessItem = true) ∧
    deduplicate_results ["m"] [emptyDupItem, witnessItem] = [witnessItem] ∧
    deduplicate_results ["m"] [witnessItem, emptyDupItem] = [witnessItem] := by
  have h := (dedup_first_non_empty_wins ["m"] [emptyDupItem, witnessItem] "q1"
    (by decide)).2 emptyDupItem witnessItem (by decide) (by decide)
    (by decide) (by decide)
  exact ⟨⟨by decide, by decide, by decide, by decide, by decide⟩, h.1, h.2⟩

/-! ### Lemmas about `_count_item` and empty answers -/

theorem mem_of_alookup_eq_some {α : Type} {m : List (String × α)} {k : String}
    {v : α} (h : alookup m k = some v) : (k, v) ∈ m := by
  induction m with
  | nil => simp [alookup] at h
  | cons e t ih =>
      obtain ⟨k0, v0⟩ := e
      cases hk : k0 == k with
      | true =>
          have hv : v0 = v := by simpa [alookup, hk] using h
          have hk0 : k0 = k := by simpa using hk
          rw [← hv, ← hk0]
          exact List.mem_cons_self _ _
      | false =>
          have h' : alookup t k = some v := by simpa [alookup, hk] using h
          exact List.mem_cons_of_mem _ (ih h')

theorem findNumberedEntry_mem {c : Module2Item} {mn mk : String}
    {e : ModelEntry} :
    ∀ keys, findNumberedEntry c mn keys = some (mk, e) → (mk, e) ∈ c.models := by
  intro keys
  induction keys with
  | nil => intro h; simp [findNumberedEntry] at h
  | cons k rest ih =>
      intro h
      unfold findNumberedEntry at h
      split at h
      next e0 hg =>
        split at h
        next =>
          have hpe : (k, e0) = (mk, e) := Option.some.inj h
          rw [← hpe]
          exact mem_of_alookup_eq_some hg
        next => exact ih h
      next => exact ih h

theorem find_model_entry_mem {c : Module2Item} {mn mk : String} {e : ModelEntry}
    (h : find_model_entry c mn = some (mk, e)) : (mk, e) ∈ c.models := by
  unfold find_model_entry at h
  split at h
  next e0 hg =>
    split at h
    next =>
      have hpe : ("model", e0) = (mk, e) := Option.some.inj h
      rw [← hpe]
      exact mem_of_alookup_eq_some hg
    next => exact findNumberedEntry_mem _ h
  next => exact findNumberedEntry_mem _ h

theorem count_item_per_round_char (item : Module2Item) (mk : String)
    (e : ModelEntry) (mn : Option String) (mg : List (String × Bool))
    (am : List (String × AnswerValue)) (h1 : e.match_gt = .mdict mg)
    (h2 : e.answer = .adict am) :
    count_item true item mk e mn =
      ((mg.filter (fun rk => !round_answer_empty am rk.1)).length,
       (mg.filter (fun rk => !round_answer_empty am rk.1 && rk.2)).length) := by
  have haux : ∀ (l : List (String × Bool)) (a b : Nat),
      l.foldl (fun acc rk =>
        if !round_answer_empty am rk.1 then
          (acc.1 + 1, acc.2 + (if rk.2 then 1 else 0))
        else acc) (a, b) =
      (a + (l.filter (fun rk => !round_answer_empty am rk.1)).length,
       b + (l.filter (fun rk => !round_answer_empty am rk.1 && rk.2)).length) := by
    intro l
    induction l with
    | nil => intro a b; simp
    | cons rk t ih =>
        intro a b
        rw [List.foldl_cons, List.filter_cons, List.filter_cons]
        dsimp only
        cases hre : (!round_answer_empty am rk.1) with
        | false =>
            simp only [Bool.false_and, Bool.false_eq_true, if_false]
            exact ih a b
        | true =>
            rw [if_pos rfl, if_pos rfl, Bool.true_and]
            cases hc : rk.2 with
            | true =>
                rw [if_pos rfl, if_pos rfl, ih]
                simp only [List.length_cons, Prod.mk.injEq]
                constructor <;> omega
            | false =>
                rw [if_neg (by simp), if_neg (by simp), ih]
                simp only [List.length_cons, Prod.mk.injEq]
                constructor <;> omega
  unfold count_item
  rw [h1, h2]
  simpa using haux mg 0 0

theorem count_item_empty_unit (cbr : Bool) (item : Module2Item) (mk : String)
    (e : ModelEntry) (mn : String)
    (hempty : answerValueEmptyUnit e.answer = true)
    (hia : is_answer_empty item (some mk) (some mn) = true) :
    count_item cbr item mk e (some mn) = (0, 0) := by
  cases hmg : e.match_gt with
  | mbool b =>
      unfold count_item
      rw [hmg]
      simp [hia]
  | mdict mg =>
      cases ha : e.answer with
      | adict am =>
          rw [ha] at hempty
          have hall : ∀ kv ∈ am,
              (match kv.2 with
               | AnswerValue.anull => true
               | AnswerValue.astr s => isBlankStr s
               | _ => false) = true := by
            simpa [answerValueEmptyUnit, List.all_eq_true] using hempty
          cases cbr with
          | true =>
              rw [count_item_per_round_char item mk e (some mn) mg am hmg ha]
              have hre : ∀ rk : String × Bool,
                  round_answer_empty am rk.1 = true := by
                intro rk
                unfold round_answer_empty
                cases hl : alookup am rk.1 with
                | none => rfl
                | some v =>
                    have hv := hall (rk.1, v) (mem_of_alookup_eq_some hl)
                    cases v with
                    | anull => rfl
                    | astr s => simpa using hv
                    | adict m2 => simp at hv
                    | aother t2 => simp at hv
              have hfil1 : mg.filter (fun rk => !round_answer_empty am rk.1) = [] := by
                rw [List.filter_eq_nil_iff]
                intro rk _
                simp [hre rk]
              have hfil2 : mg.filter
                  (fun rk => !round_answer_empty am rk.1 && rk.2) = [] := by
                rw [List.filter_eq_nil_iff]
                intro rk _
                simp [hre rk]
              rw [hfil1, hfil2]
              rfl
          | false =>
              have hany : adictHasAnyAnswer am = false := by
                rw [adictHasAnyAnswer, List.any_eq_false]
                intro kv hkv
                have hv := hall kv hkv
                cases hkv2 : kv.2 with
                | anull => simp
                | astr s =>
                    rw [hkv2] at hv
                    simp at hv
                    simp [hv]
                | adict m2 => rw [hkv2] at hv; simp at hv
                | aother t2 => rw [hkv2] at hv; simp at hv
              unfold count_item
              rw [hmg, ha]
              simp [hany]
      | astr s0 =>
          unfold count_item
          rw [hmg, ha]
          cases cbr <;> simp [hia]
      | anull =>
          unfold count_item
          rw [hmg, ha]
          cases cbr <;> simp [hia]
      | aother t0 =>
          rw [ha] at hempty
          simp [answerValueEmptyUnit] at hempty

theorem check_answer_empty_of_emptyUnit {v : AnswerValue}
    (h : answerValueEmptyUnit v = true) : check_answer_empty v = true := by
  cases v with
  | anull => rfl
  | astr s =>
      simp only [answerValueEmptyUnit] at h
      simp [check_answer_empty, h]
  | adict am =>
      simp only [answerValueEmptyUnit, List.all_eq_true] at h
      unfold check_answer_empty
      cases ham : am with
      | nil => simp
      | cons kv t =>
          have hv := h kv (ham ▸ List.mem_cons_self _ _)
          simp only [List.isEmpty_cons, Bool.false_eq_true, if_false,
            List.any_cons]
          cases hkv2 : kv.2 with
          | anull => simp [pyTruthy]
          | astr s =>
              rw [hkv2] at hv
              simp only at hv
              simp [pyTruthy, hv]
          | adict m2 => rw [hkv2] at hv; simp at hv
          | aother t2 => rw [hkv2] at hv; simp at hv
  | aother t0 => simp [answerValueEmptyUnit] at h

theorem isAnswerEmptyScan_of_all (c : Module2Item) (mk : Option String)
    (mn : Option String)
    (hck : ∀ p ∈ c.models, check_answer_empty p.2.answer = true) :
    ∀ keys, isAnswerEmptyScan c mk mn keys = true := by
  intro keys
  induction keys with
  | nil => rfl
  | cons k rest ih =>
      unfold isAnswerEmptyScan
      by_cases hmk : (mk == some k) = true
      · simp [hmk, ih]
      · simp only [hmk, Bool.false_eq_true, if_false]
        cases hg : getModelKey c k with
        | none => exact ih
        | some md =>
            have hmd := hck (k, md) (mem_of_alookup_eq_some hg)
            cases mn with
            | some mn0 =>
                by_cases hname : (md.model_name == mn0) = true
                · simp [hname, hmd]
                · simp [hname, ih]
            | none => simp [hmd, ih]

theorem is_answer_empty_of_emptyRecord (c : Module2Item)
    (h : emptyAnswerRecord c = true) (mk : Option String)
    (mn : Option String) : is_answer_empty c mk mn = true := by
  have h2 : c.models.all (fun p => answerValueEmptyUnit p.2.answer) = true := by
    rw [emptyAnswerRecord] at h
    exact h
  have hck : ∀ p ∈ c.models, check_answer_empty p.2.answer = true := by
    intro p hp
    exact check_answer_empty_of_emptyUnit (List.all_eq_true.mp h2 p hp)
  unfold is_answer_empty
  have hphase1 : (match mk with
      | some mk0 =>
          match getModelKey c mk0 with
          | some md =>
              match mn with
              | some mn0 =>
                  if md.model_name != mn0 then false
                  else !check_answer_empty md.answer
              | none => !check_answer_empty md.answer
          | none => false
      | none => false) = false := by
    cases mk with
    | none => rfl
    | some mk0 =>
        dsimp only
        cases hg : getModelKey c mk0 with
        | none => rfl
        | some md =>
            dsimp only
            have hmd : check_answer_empty md.answer = true :=
              hck (mk0, md) (mem_of_alookup_eq_some hg)
            cases mn with
            | some mn0 =>
                dsimp only
                by_cases hname : (md.model_name != mn0) = true
                · rw [if_pos hname]
                · rw [if_neg hname, hmd]
                  rfl
            | none =>
                dsimp only
                rw [hmd]
                rfl
  simp only [hphase1, Bool.false_eq_true, if_false]
  exact isAnswerEmptyScan_of_all c mk mn hck _

theorem itemHasValidAnswer_of_emptyRecord (models : List String)
    (c : Module2Item) (h : emptyAnswerRecord c = true) :
    itemHasValidAnswer models c = false := by
  rw [itemHasValidAnswer, List.any_eq_false]
  intro mn _
  cases hf : find_model_entry c mn with
  | none => simp
  | some p =>
      obtain ⟨mk, e⟩ := p
      simp [is_answer_empty_of_emptyRecord c h (some mk) (some mn)]

theorem addModelCount_emptyRecord (cbr : Bool) (c : Module2Item) (mn : String)
    (acc : Nat × Nat) (h : emptyAnswerRecord c = true) :
    addModelCount cbr c mn acc = acc := by
  unfold addModelCount
  cases hf : find_model_entry c mn with
  | none => rfl
  | some p =>
      obtain ⟨mk, e⟩ := p
      have hmem := find_model_entry_mem hf
      have h2 : c.models.all (fun p => answerValueEmptyUnit p.2.answer) = true := by
        rw [emptyAnswerRecord] at h
        exact h
      have hempty : answerValueEmptyUnit e.answer = true :=
        List.all_eq_true.mp h2 (mk, e) hmem
      dsimp only
      rw [count_item_empty_unit cbr c mk e mn hempty
        (is_answer_empty_of_emptyRecord c h (some mk) (some mn))]
      rfl

theorem foldl_addModelCount_emptyRecord (cbr : Bool) (c : Module2Item)
    (h : emptyAnswerRecord c = true) :
    ∀ (l : List String) (acc : Nat × Nat),
      l.foldl (fun acc mn => addModelCount cbr c mn acc) acc = acc := by
  intro l
  induction l with
  | nil => intro acc; rfl
  | cons mn rest ih =>
      intro acc
      rw [List.foldl_cons, addModelCount_emptyRecord cbr c mn acc h]
      exact ih acc

/-- **C2.** Empty scoring units never reach an accuracy denominator and are
never counted as incorrect, in both scoring modes and uniformly across the
breakdowns.  First conjunct: in per-round mode `_count_item` counts exactly
the rounds of `match_gt` whose answer is non-empty (a missing per-round map
entry, a null, or a blank string is excluded from both the denominator and
the numerator).  Second conjunct: a unit whose answer is empty (null, blank,
or an all-empty round map) contributes `(0, 0)` in either mode.  Third
conjunct: a record whose answers are all empty is reported empty by
`is_answer_empty` under every key/name, and contributes nothing to the
per-model, per-profile, per-classification and overall totals. -/
theorem empty_units_excluded_from_denominator (cbr : Bool)
    (models : List String) :
    (∀ (item : Module2Item) (mk : String) (e : ModelEntry) (mn : Option String)
        (mg : List (String × Bool)) (am : List (String × AnswerValue)),
      e.match_gt = .mdict mg → e.answer = .adict am →
      count_item true item mk e mn =
        ((mg.filter (fun rk => !round_answer_empty am rk.1)).length,
         (mg.filter (fun rk => !round_answer_empty am rk.1 && rk.2)).length)) ∧
    (∀ (item : Module2Item) (mk : String) (e : ModelEntry) (mn : String),
      answerValueEmptyUnit e.answer = true →
      is_answer_empty item (some mk) (some mn) = true →
      count_item cbr item mk e (some mn) = (0, 0)) ∧
    (∀ c : Module2Item, emptyAnswerRecord c = true →
      (∀ mk mn, is_answer_empty c mk mn = true) ∧
      ∀ mn p f v : String,
        by_model_counts cbr models [c] mn = (0, 0) ∧
        by_profile_counts cbr models [c] p = (0, 0) ∧
        by_category_counts cbr models [c] f v = (0, 0) ∧
        total_counts cbr models [c] = (0, 0) ∧
        overall_item_contribution models c = (0, 0)) := by
  refine ⟨fun item mk e mn mg am h1 h2 =>
      count_item_per_round_char item mk e mn mg am h1 h2,
    fun item mk e mn he hia => count_item_empty_unit cbr item mk e mn he hia,
    fun c hc => ⟨fun mk mn => is_answer_empty_of_emptyRecord c hc mk mn,
      fun mn p f v => ?_⟩⟩
  have hded : deduplicate_results models [c] = [] ∨
      deduplicate_results models [c] = [c] := by
    unfold deduplicate_results
    rw [List.foldl_cons, List.foldl_nil]
    cases hq : c.question_id == "" with
    | true => left; simp [dedupStep, hq]
    | false => right; simp [dedupStep, hq, alookup]
  have hov : overall_item_contribution models c = (0, 0) := by
    unfold overall_item_contribution
    dsimp only
    rw [itemHasValidAnswer_of_emptyRecord models c hc]
    rfl
  refine ⟨?_, ?_, ?_, ?_, hov⟩
  · unfold by_model_counts
    rcases hded with h | h <;> rw [h]
    · rfl
    · rw [List.foldl_cons, List.foldl_nil,
        addModelCount_emptyRecord cbr c mn (0, 0) hc]
  · unfold by_profile_counts
    rcases hded with h | h <;> rw [h]
    · rfl
    · rw [List.foldl_cons, List.foldl_nil]
      cases hpq : (c.profile == some p) with
      | false => rfl
      | true =>
          rw [if_pos rfl]
          exact foldl_addModelCount_emptyRecord cbr c hc models (0, 0)
  · unfold by_category_counts
    rcases hded with h | h <;> rw [h]
    · rfl
    · rw [List.foldl_cons, List.foldl_nil]
      cases hcq : (alookup c.cats f == some v) with
      | false => rfl
      | true =>
          rw [if_pos rfl]
          exact foldl_addModelCount_emptyRecord cbr c hc models (0, 0)
  · cases cbr with
    | true =>
        unfold total_counts
        rw [if_pos rfl]
        rcases hded with h | h <;> rw [h]
        · rfl
        · rw [List.foldl_cons, List.foldl_nil]
          cases hq : (c.question_id == "") with
          | true => simp [hq]
          | false =>
              simp only [hq, Bool.false_eq_true, if_false]
              exact foldl_addModelCount_emptyRecord true c hc models (0, 0)
    | false =>
        unfold total_counts
        rw [if_neg (by simp)]
        rw [List.foldl_cons, List.foldl_nil]
        cases hq : c.question_id == "" with
        | true => simp [overallPass1Step, hq]
        | false => simp [overallPass1Step, hq, alookup, hov]

/-- Witness for `empty_units_excluded_from_denominator`: a two-round unit
with one answered round and one missing round entry counts exactly one
per-round unit; the empty duplicate record contributes nothing anywhere. -/
theorem empty_units_excluded_from_denominator_witness :
    (witnessMultiEntry.match_gt =
        .mdict [("round1", true), ("round2", false)] ∧
      witnessMultiEntry.answer = .adict [("round1", .astr "A")] ∧
      answerValueEmptyUnit (ModelEntry.answer
        ((emptyDupItem.models.head?.getD ("", witnessMultiEntry)).2)) = true ∧
      is_answer_empty emptyDupItem (some "model") (some "m") = true ∧
      emptyAnswerRecord emptyDupItem = true) ∧
    count_item true emptyDupItem "model" witnessMultiEntry (some "m") = (1, 1) ∧
    count_item false emptyDupItem "model"
      ((emptyDupItem.models.head?.getD ("", witnessMultiEntry)).2)
      (some "m") = (0, 0) ∧
    by_model_counts false ["m"] [emptyDupItem] "m" = (0, 0) ∧
    by_profile_counts false ["m"] [emptyDupItem] "p" = (0, 0) ∧
    by_category_counts false ["m"] [emptyDupItem] "question_type" "单选题" = (0, 0) ∧
    total_counts false ["m"] [emptyDupItem] = (0, 0) ∧
    overall_item_contribution ["m"] emptyDupItem = (0, 0) := by
  have h := empty_units_excluded_from_denominator false ["m"]
  have h3 := (h.2.2 emptyDupItem (by decide)).2 "m" "p" "question_type" "单选题"
  refine ⟨⟨rfl, rfl, by decide, by decide, by decide⟩, ?_, ?_,
    h3.1, h3.2.1, h3.2.2.1, h3.2.2.2.1, h3.2.2.2.2⟩
  · rw [h.1 emptyDupItem "model" witnessMultiEntry (some "m")
      [("round1", true), ("round2", false)] [("round1", .astr "A")] rfl rfl]
    decide
  · exact h.2.1 emptyDupItem "model" _ "m" (by decide) (by decide)

theorem foldl_and_all_correct :
    ∀ (l : List EvalRoundData) (b : Bool),
      l.foldl (fun acc r => if !r.is_correct then false else acc) b =
        (b && l.all (fun r => r.is_correct)) := by
  intro l
  induction l with
  | nil => intro b; simp
  | cons r t ih =>
      intro b
      rw [List.foldl_cons]
      cases hc : r.is_correct with
      | true =>
          rw [show (if (!true) = true then false else b) = b from rfl, ih,
            List.all_cons]
          rw [hc, Bool.true_and]
      | false =>
          rw [show (if (!false) = true then false else b) = false from rfl, ih,
            List.all_cons]
          rw [hc, Bool.false_and, Bool.and_false]

/-- **C7.** Round aggregation.  First conjunct: the evaluator's per-model
summary marks a multi-round task correct iff every round's verdict is true
(the `model_all_correct` fold equals the conjunction over all rounds), in
both the `all_rounds_correct` and `is_correct` fields.  Second conjunct: the
converter's whole-item agreement for a multi-round record is 1 iff the round
map is non-empty and every round's verdict is true.  Third conjunct: in
per-round mode, a multi-round unit whose rounds all have non-empty answers
yields one independently scored unit per round — the denominator is the
number of rounds and the numerator the number of correct rounds, regardless
of the whole-item outcome. -/
theorem round_aggregation :
    (∀ (mn : String) (rd : List EvalRoundData) (trt tjt : ℚ),
      (summarize_model_rounds mn rd trt tjt).all_rounds_correct =
        some (rd.all (fun r => r.is_correct)) ∧
      (summarize_model_rounds mn rd trt tjt).is_correct =
        some (rd.all (fun r => r.is_correct))) ∧
    (∀ m : List (String × Bool),
      compute_agreement true (.mdict m) = 1 ↔
        m ≠ [] ∧ ∀ rk ∈ m, rk.2 = true) ∧
    (∀ (item : Module2Item) (mk : String) (e : ModelEntry) (mn : Option String)
        (mg : List (String × Bool)) (am : List (String × AnswerValue)),
      e.match_gt = .mdict mg → e.answer = .adict am →
      (∀ rk ∈ mg, round_answer_empty am rk.1 = false) →
      count_item true item mk e mn =
        (mg.length, (mg.filter (fun rk => rk.2)).length)) := by
  refine ⟨?_, ?_, ?_⟩
  · intro mn rd trt tjt
    constructor
    · show some (rd.foldl (fun acc r => if !r.is_correct then false else acc)
        true) = some (rd.all (fun r => r.is_correct))
      rw [foldl_and_all_correct rd true, Bool.true_and]
    · show some (rd.foldl (fun acc r => if !r.is_correct then false else acc)
        true) = some (rd.all (fun r => r.is_correct))
      rw [foldl_and_all_correct rd true, Bool.true_and]
  · intro m
    unfold compute_agreement allRoundsTrue
    dsimp only
    constructor
    · intro h1
      by_cases hm : (!m.isEmpty && m.all fun rk => rk.2) = true
      · refine ⟨?_, ?_⟩
        · intro hnil
          rw [hnil] at hm
          simp at hm
        · intro rk hrk
          exact List.all_eq_true.mp ((Bool.and_eq_true _ _).mp hm).2 rk hrk
      · rw [if_neg hm] at h1
        exact absurd h1 (by simp)
    · intro ⟨hne, hall⟩
      have hm : (!m.isEmpty && m.all fun rk => rk.2) = true := by
        rw [Bool.and_eq_true]
        exact ⟨by simpa using hne, List.all_eq_true.mpr hall⟩
      rw [if_pos hm]
  · intro item mk e mn mg am h1 h2 hne
    rw [count_item_per_round_char item mk e mn mg am h1 h2]
    have hf1 : mg.filter (fun rk => !round_answer_empty am rk.1) = mg := by
      rw [List.filter_eq_self]
      intro rk hrk
      simp [hne rk hrk]
    have hf2 : mg.filter (fun rk => !round_answer_empty am rk.1 && rk.2) =
        mg.filter (fun rk => rk.2) := by
      refine List.filter_congr ?_
      intro rk hrk
      simp [hne rk hrk]
    rw [hf1, hf2]

/-- Witness for `round_aggregation`: a three-round task with verdicts
true/true/false is not whole-item correct, its agreement is 0, and in
per-round mode it counts (3, 2). -/
theorem round_aggregation_witness :
    (witnessRound3.match_gt = .mdict
        [("round1", true), ("round2", true), ("round3", false)] ∧
      witnessRound3.answer = .adict
        [("round1", .astr "A"), ("round2", .astr "B"), ("round3", .astr "C")] ∧
      ∀ rk ∈ [(("round1" : String), true), ("round2", true), ("round3", false)],
        round_answer_empty
          [("round1", .astr "A"), ("round2", .astr "B"), ("round3", .astr "C")]
          rk.1 = false) ∧
    count_item true witnessItem "model" witnessRound3 (some "m") = (3, 2) ∧
    (compute_agreement true (.mdict
        [("round1", true), ("round2", true), ("round3", false)]) = 1 ↔
      ([(("round1" : String), true), ("round2", true), ("round3", false)] ≠ [] ∧
        ∀ rk ∈ [(("round1" : String), true), ("round2", true), ("round3", false)],
          rk.2 = true)) ∧
    (summarize_model_rounds "m" witnessThreeRounds 3 3).all_rounds_correct =
      some false := by
  refine ⟨⟨rfl, rfl, by decide⟩, ?_, round_aggregation.2.1 _, ?_⟩
  · rw [round_aggregation.2.2 witnessItem "model" witnessRound3 (some "m")
      [("round1", true), ("round2", true), ("round3", false)]
      [("round1", .astr "A"), ("round2", .astr "B"), ("round3", .astr "C")]
      rfl rfl (by decide)]
    decide
  · rw [(round_aggregation.1 "m" witnessThreeRounds 3 3).1]
    decide

/-! ### Lemmas about the converter's round fold and the resume scan -/

theorem alookup_aset_self {α : Type} (m : List (String × α)) (k : String)
    (v : α) : alookup (aset m k v) k = some v := by
  unfold aset
  by_cases h : (alookup m k).isSome
  · rw [if_pos h]
    exact alookup_areplace_self m k v h
  · rw [if_neg h, alookup_append]
    cases hl : alookup m k with
    | some v0 => rw [hl] at h; simp at h
    | none => simp [alookup]

theorem alookup_aset_ne {α : Type} (m : List (String × α)) (k k' : String)
    (v : α) (h : k ≠ k') : alookup (aset m k v) k' = alookup m k' := by
  unfold aset
  split
  · exact alookup_areplace_ne m k k' v h
  · rw [alookup_append]
    cases h2 : alookup m k' with
    | some v0 => rfl
    | none => simp [alookup, beq_eq_false_iff_ne.mpr h]

theorem alookup_map_values {α β : Type} (m : List (String × α)) (f : α → β)
    (k : String) :
    alookup (m.map (fun kv => (kv.1, f kv.2))) k = (alookup m k).map f := by
  induction m with
  | nil => rfl
  | cons e t ih =>
      obtain ⟨k0, v0⟩ := e
      cases hk : k0 == k with
      | true => simp [alookup, hk]
      | false => simp [alookup, hk, ih]

theorem convertRoundStep_lookup_self (acc : List (String × String) ×
    List (String × String) × List (String × Bool) × List (String × String))
    (rd : EvalRoundData) :
    alookup (convertRoundStep acc rd).1 (convertRoundKey rd) =
      some (convertRoundAnswer rd) ∧
    alookup (convertRoundStep acc rd).2.2.1 (convertRoundKey rd) =
      some (convertRoundCorrect rd) := by
  constructor
  · exact alookup_aset_self _ _ _
  · exact alookup_aset_self _ _ _

theorem convert_fold_frame :
    ∀ (l : List EvalRoundData) (acc : List (String × String) ×
      List (String × String) × List (String × Bool) × List (String × String))
      (k : String),
      (∀ r ∈ l, convertRoundKey r ≠ k) →
      alookup (l.foldl convertRoundStep acc).1 k = alookup acc.1 k ∧
      alookup (l.foldl convertRoundStep acc).2.2.1 k = alookup acc.2.2.1 k := by
  intro l
  induction l with
  | nil => intro acc k _; exact ⟨rfl, rfl⟩
  | cons r t ih =>
      intro acc k h
      rw [List.foldl_cons]
      obtain ⟨h1, h2⟩ := ih (convertRoundStep acc r) k
        (fun r' hr' => h r' (List.mem_cons_of_mem _ hr'))
      rw [h1, h2]
      have hne : convertRoundKey r ≠ k := h r (List.mem_cons_self _ _)
      exact ⟨alookup_aset_ne _ _ _ _ hne, alookup_aset_ne _ _ _ _ hne⟩

theorem convert_fold_round_lookup (rl : List EvalRoundData)
    (hnd : (rl.map convertRoundKey).Nodup) (rd : EvalRoundData)
    (hrd : rd ∈ rl) :
    alookup (rl.foldl convertRoundStep ([], [], [], [])).1
        (convertRoundKey rd) = some (convertRoundAnswer rd) ∧
    alookup (rl.foldl convertRoundStep ([], [], [], [])).2.2.1
        (convertRoundKey rd) = some (convertRoundCorrect rd) := by
  obtain ⟨s, t, rfl⟩ := List.append_of_mem hrd
  rw [List.foldl_append, List.foldl_cons]
  have hkeys : ∀ r ∈ t, convertRoundKey r ≠ convertRoundKey rd := by
    intro r hr hcon
    have hnd2 : ((s.map convertRoundKey) ++
        (convertRoundKey rd :: t.map convertRoundKey)).Nodup := by
      simpa using hnd
    have hnd3 : (convertRoundKey rd :: t.map convertRoundKey).Nodup :=
      hnd2.sublist (List.sublist_append_right _ _)
    exact (List.nodup_cons.mp hnd3).1
      (hcon ▸ List.mem_map_of_mem convertRoundKey hr)
  obtain ⟨h1, h2⟩ := convert_fold_frame t
    (convertRoundStep (s.foldl convertRoundStep ([], [], [], [])) rd)
    (convertRoundKey rd) hkeys
  rw [h1, h2]
  exact convertRoundStep_lookup_self _ rd

theorem resume_single_empty (mn : String) (item : Module2Item)
    (h : is_answer_empty item none (some mn) = true) :
    (resume_scan mn [item]).completed_ids = [] := by
  unfold resume_scan resumeStep resumeInit
  rw [List.foldl_cons, List.foldl_nil]
  cases hq : item.question_id == "" with
  | true => simp [hq]
  | false => simp [hq, alookup, h]

/-- **C10.** A per-model evaluation failure stores an entry whose
`model_answer`, `extracted_answer` and `answer_for_judge` are all the empty
string and whose `is_correct` is false, with the error text only in the
`error` field (first two conjuncts: the round-level and model-level error
entries, for every error text).  The converted record then carries an empty
answer: a single-round failure converts to a record with answer, process
and reasoning empty and verdict false, which `is_answer_empty` reports
empty under every lookup and the resume scan leaves out of `completed_ids`
(third and fourth conjuncts); a failure in any round of a multi-round item
converts to empty strings at that round's keys in the answer map, making
the whole record empty for the resume scan (fifth conjunct). -/
theorem error_entries_empty_and_resumable :
    (∀ rk q a mn e : String,
      (errorRoundData rk q a mn e).model_answer = "" ∧
      (errorRoundData rk q a mn e).extracted_answer = "" ∧
      (errorRoundData rk q a mn e).answer_for_judge = "" ∧
      (errorRoundData rk q a mn e).is_correct = false ∧
      (errorRoundData rk q a mn e).error = some e) ∧
    (∀ mn e : String,
      (errorModelData mn e).model_answer = "" ∧
      (errorModelData mn e).extracted_answer = "" ∧
      (errorModelData mn e).answer_for_judge = "" ∧
      (errorModelData mn e).is_correct = some false ∧
      (errorModelData mn e).error = some e) ∧
    (∀ (result : EvalResult) (mn p e : String),
      result.is_multi_round = false →
      alookup ((alookup result.profiles p).getD []) mn =
        some (errorModelData mn e) →
      convert_to_module2_format result mn p =
        some (errorConvertedItem result mn p)) ∧
    (∀ (result : EvalResult) (mn p : String),
      is_answer_empty (errorConvertedItem result mn p) (some "model")
        (some mn) = true ∧
      is_answer_empty (errorConvertedItem result mn p) none (some mn) = true ∧
      itemHasValidAnswer [mn] (errorConvertedItem result mn p) = false ∧
      (resume_scan mn [errorConvertedItem result mn p]).completed_ids = []) ∧
    (∀ (result : EvalResult) (mn p : String) (md : EvalModelData)
        (rl : List EvalRoundData) (rd : EvalRoundData),
      result.is_multi_round = true →
      alookup ((alookup result.profiles p).getD []) mn = some md →
      md.rounds = some rl →
      rl.isEmpty = false →
      (rl.map convertRoundKey).Nodup →
      rd ∈ rl →
      rd.error.isSome = true →
      convert_to_module2_format result mn p =
        some (multiConvertedItem result mn p rl
          (if md.total_response_time.isSome then md.total_response_time.getD 0
           else md.response_time)) ∧
      alookup (rl.foldl convertRoundStep ([], [], [], [])).1
        (convertRoundKey rd) = some "" ∧
      alookup (rl.foldl convertRoundStep ([], [], [], [])).2.2.1
        (convertRoundKey rd) = some false ∧
      ∀ rtv : ℚ,
        is_answer_empty (multiConvertedItem result mn p rl rtv) none
          (some mn) = true ∧
        (resume_scan mn [multiConvertedItem result mn p rl rtv]).completed_ids
          = []) := by
  refine ⟨fun rk q a mn e => ⟨rfl, rfl, rfl, rfl, rfl⟩,
    fun mn e => ⟨rfl, rfl, rfl, rfl, rfl⟩, ?_, ?_, ?_⟩
  · intro result mn p e hm hmd
    unfold convert_to_module2_format
    dsimp only
    rw [hmd]
    simp [errorModelData, hm, errorConvertedItem, errorConvertedEntry,
      compute_agreement]
  · intro result mn p
    have hrec : emptyAnswerRecord (errorConvertedItem result mn p) = true := rfl
    refine ⟨is_answer_empty_of_emptyRecord _ hrec _ _,
      is_answer_empty_of_emptyRecord _ hrec _ _,
      itemHasValidAnswer_of_emptyRecord _ _ hrec,
      resume_single_empty mn _ (is_answer_empty_of_emptyRecord _ hrec _ _)⟩
  · intro result mn p md rl rd hm hmd hr hne hnd hrd herr
    have hlook := convert_fold_round_lookup rl hnd rd hrd
    have hra : convertRoundAnswer rd = "" := by
      unfold convertRoundAnswer
      rw [herr]
      rfl
    have hrc : convertRoundCorrect rd = false := by
      unfold convertRoundCorrect
      rw [herr]
      rfl
    have hdictne : ((rl.foldl convertRoundStep ([], [], [], [])).1).isEmpty
        = false := by
      cases hd : (rl.foldl convertRoundStep ([], [], [], [])).1 with
      | nil =>
          have := hlook.1
          rw [hd] at this
          simp [alookup] at this
      | cons a t => rfl
    have hcv : convert_to_module2_format result mn p =
        some (multiConvertedItem result mn p rl
          (if md.total_response_time.isSome then md.total_response_time.getD 0
           else md.response_time)) := by
      unfold convert_to_module2_format
      dsimp only
      rw [hmd]
      simp only [hm, hr, Option.getD_some, Bool.true_and]
      rw [if_pos (by simp [hne])]
      rw [if_pos (by simp [hdictne])]
      simp [multiConvertedItem, multiConvertedEntry]
    have hempty : ∀ rtv : ℚ,
        is_answer_empty (multiConvertedItem result mn p rl rtv) none
          (some mn) = true := by
      intro rtv
      have hmem : (convertRoundKey rd, AnswerValue.astr "") ∈
          ((rl.foldl convertRoundStep ([], [], [], [])).1.map
            (fun kv => (kv.1, AnswerValue.astr kv.2))) := by
        refine mem_of_alookup_eq_some ?_
        rw [alookup_map_values, hlook.1, hra]
        rfl
      have hchk : check_answer_empty
          (multiConvertedEntry mn rl rtv).answer = true := by
        show check_answer_empty (.adict _) = true
        unfold check_answer_empty
        dsimp only
        rw [if_neg (by
          intro hcon
          rw [List.isEmpty_iff] at hcon
          rw [hcon] at hmem
          simp at hmem)]
        rw [List.any_eq_true]
        exact ⟨_, hmem, by rfl⟩
      have hscan : isAnswerEmptyScan (multiConvertedItem result mn p rl rtv)
          none (some mn) possibleModelKeys =
          check_answer_empty (multiConvertedEntry mn rl rtv).answer := by
        show (if (mn == mn) = true
              then check_answer_empty (multiConvertedEntry mn rl rtv).answer
              else isAnswerEmptyScan (multiConvertedItem result mn p rl rtv)
                none (some mn)
                ["model1", "model2", "model3", "model4", "model5"])
            = check_answer_empty (multiConvertedEntry mn rl rtv).answer
        rw [if_pos (beq_self_eq_true mn)]
      have hphase : is_answer_empty (multiConvertedItem result mn p rl rtv)
          none (some mn) =
          isAnswerEmptyScan (multiConvertedItem result mn p rl rtv) none
            (some mn) possibleModelKeys := rfl
      rw [hphase, hscan, hchk]
    exact ⟨hcv, hra ▸ hlook.1, hrc ▸ hlook.2, fun rtv =>
      ⟨hempty rtv, resume_single_empty mn _ (hempty rtv)⟩⟩

/-- Witness for `error_entries_empty_and_resumable`: a concrete single-round
failure and a concrete two-round result whose second round failed. -/
theorem error_entries_empty_and_resumable_witness :
    (c10Result.is_multi_round = false ∧
      alookup ((alookup c10Result.profiles "p").getD []) "m" =
        some (errorModelData "m" "boom") ∧
      c10MultiResult.is_multi_round = true ∧
      c10MultiData.rounds = some c10MultiRounds ∧
      c10MultiRounds.isEmpty = false ∧
      (c10MultiRounds.map convertRoundKey).Nodup ∧
      (errorRoundData "round2" "q" "B" "m" "boom") ∈ c10MultiRounds ∧
      (errorRoundData "round2" "q" "B" "m" "boom").error.isSome = true) ∧
    convert_to_module2_format c10Result "m" "p" =
      some (errorConvertedItem c10Result "m" "p") ∧
    is_answer_empty (errorConvertedItem c10Result "m" "p") none (some "m")
      = true ∧
    (resume_scan "m" [errorConvertedItem c10Result "m" "p"]).completed_ids
      = [] ∧
    alookup (c10MultiRounds.foldl convertRoundStep ([], [], [], [])).1
      (convertRoundKey (errorRoundData "round2" "q" "B" "m" "boom"))
      = some "" := by
  have h := error_entries_empty_and_resumable
  have h3 := h.2.2.1 c10Result "m" "p" "boom" rfl rfl
  have h4 := h.2.2.2.1 c10Result "m" "p"
  have h5 := h.2.2.2.2 c10MultiResult "m" "p" c10MultiData c10MultiRounds
    (errorRoundData "round2" "q" "B" "m" "boom") rfl rfl rfl (by decide)
    (by decide)
    (List.mem_cons_of_mem _ (List.mem_cons_self _ _)) rfl
  exact ⟨⟨rfl, rfl, rfl, rfl, by decide, by decide,
    List.mem_cons_of_mem _ (List.mem_cons_self _ _), rfl⟩,
    h3, h4.2.1, h4.2.2.2, h5.2.1⟩

/-- **C4, counterexample.** The claim as stated fails in whole-item mode:
`c4Result` is a two-round item whose first round was answered and judged
correct and whose second round's judge exhausted every retry (a typed
failure, recorded in the round's `error` field with `is_correct` false).
The converted record still enters the `by_model` denominator and is scored
answered-and-wrong — `(1, 0)` — because whole-item counting only skips an
item when every round's answer is empty, and the errored round forces the
all-rounds conjunction to false.  So a judge-exhausted unit inside a
partially answered multi-round item does default to incorrect in the
whole-item statistics. -/
theorem judge_exhaustion_counted_incorrect :
    c4JudgeFail "B" = .error "judge retries exhausted" ∧
    (c4ModelData.rounds.getD []).map
      (fun rd => (rd.round, rd.is_correct, rd.error.isSome)) =
      [("round1", true, false), ("round2", false, true)] ∧
    (convert_to_module2_format c4Result "m" "p").map
      (fun item => by_model_counts false ["m"] [item] "m") = some (1, 0) := by
  refine ⟨rfl, by decide, by with_unfolding_all rfl⟩

/-- **C4, amended.** What the code guarantees about judge exhaustion: (1)
when every judge attempt within the retry bound fails, `judge_answer`
surfaces a typed failure; (2) a single-round model whose judge always fails
is stored as the error entry (answer fields empty, error text only in
`error`); (3) likewise for one round of a multi-round item; (4) the
converted single-round failure record contributes nothing to any breakdown
sum in either scoring mode (its placeholder entry is not even matched); (5)
the converted answer entry of an errored round is empty in the per-round
sense; and (6) per-round counting takes its denominator (and numerator)
only from rounds whose stored answer is non-empty — so, with (5), a
judge-exhausted round is excluded from per-round accuracy.  The whole-item
exclusion claimed for partially answered multi-round items does not hold
(see the counterexample). -/
theorem judge_exhaustion_failure_recorded :
    (∀ (attempts : List (Except String (Bool × String × ℚ))) (n : Nat),
      ((attempts.take n).all (fun a =>
        match a with
        | .ok v => false
        | .error e => true)) = true →
      judge_answer attempts n = .error "judge retries exhausted") ∧
    (∀ (jloads : List Char → Option (List (String × String)))
        (mc : String × ℚ × Option RawResponse) (mn e : String)
        (judgeCall : String → Except String (Bool × String × ℚ)),
      (∀ s, judgeCall s = .error e) →
      eval_single_model jloads (.ok mc) judgeCall mn = errorModelData mn e) ∧
    (∀ (jloads : List Char → Option (List (String × String)))
        (mn : String) (r : RoundCallSpec)
        (ma : String) (rt : ℚ) (raw : Option RawResponse) (e : String),
      r.modelCall = .ok (ma, rt, raw) →
      (∀ s, r.judgeCall s = .error e) →
      (run_round jloads mn r).1 =
        errorRoundData r.round_key r.question r.gt_answer mn e) ∧
    (∀ (result : EvalResult) (mn p : String) (cbr : Bool) (acc : Nat × Nat),
      addModelCount cbr (errorConvertedItem result mn p) mn acc = acc) ∧
    (∀ (rl : List EvalRoundData) (rd : EvalRoundData),
      (rl.map convertRoundKey).Nodup → rd ∈ rl → rd.error.isSome = true →
      round_answer_empty
        ((rl.foldl convertRoundStep ([], [], [], [])).1.map
          (fun kv => (kv.1, AnswerValue.astr kv.2))) (convertRoundKey rd)
        = true) ∧
    (∀ (result : EvalResult) (mn p : String) (rl : List EvalRoundData)
        (rtv : ℚ),
      count_item true (multiConvertedItem result mn p rl rtv) "model"
          (multiConvertedEntry mn rl rtv) (some mn) =
        (((rl.foldl convertRoundStep ([], [], [], [])).2.2.1.filter
            (fun rk => !round_answer_empty
              ((rl.foldl convertRoundStep ([], [], [], [])).1.map
                (fun kv => (kv.1, AnswerValue.astr kv.2))) rk.1)).length,
         ((rl.foldl convertRoundStep ([], [], [], [])).2.2.1.filter
            (fun rk => (!round_answer_empty
              ((rl.foldl convertRoundStep ([], [], [], [])).1.map
                (fun kv => (kv.1, AnswerValue.astr kv.2))) rk.1)
              && rk.2)).length)) := by
  refine ⟨?_, ?_, ?_, ?_, ?_, ?_⟩
  · intro attempts n hall
    unfold judge_answer
    have hn : (attempts.take n).findSome? (fun a =>
        match a with
        | Except.ok v => some v
        | Except.error e => none) = none := by
      rw [List.findSome?_eq_none_iff]
      intro a ha
      have h2 := (List.all_eq_true.mp hall) a ha
      cases a with
      | ok v => simp at h2
      | error e2 => rfl
    rw [hn]
  · intro jloads mc mn e judgeCall hj
    obtain ⟨ma, rt, raw⟩ := mc
    unfold eval_single_model
    dsimp only
    rw [hj]
  · intro jloads mn r ma rt raw e hmc hj
    unfold run_round
    rw [hmc]
    dsimp only
    rw [hj]
  · intro result mn p cbr acc
    rfl
  · intro rl rd hnd hrd herr
    have hlook := (convert_fold_round_lookup rl hnd rd hrd).1
    have hra : convertRoundAnswer rd = "" := by
      unfold convertRoundAnswer
      rw [herr]
      rfl
    unfold round_answer_empty
    rw [alookup_map_values, hlook, hra]
    rfl
  · intro result mn p rl rtv
    exact count_item_per_round_char _ _ _ _ _ _ rfl rfl

/-- Witness for `judge_exhaustion_failure_recorded`: three failing attempts
exhaust a retry bound of three; a single round and a one-round call plan
whose judge always fails produce the error entries; the converted
single-round failure leaves a running `(3, 2)` tally unchanged in
whole-item mode; the errored second round of the concrete two-round list
has an empty converted answer; and the per-round count of that list is
`(1, 1)` — only the answered, correct first round. -/
theorem judge_exhaustion_failure_recorded_witness :
    judge_answer [Except.error "judge timeout", Except.error "judge timeout",
      Except.error "judge timeout"] 3 = .error "judge retries exhausted" ∧
    eval_single_model c4NoJson (.ok ("hello", 1, none))
      (fun s => Except.error "judge down") "m" =
      errorModelData "m" "judge down" ∧
    (run_round c4NoJson "m"
      { round_key := "round2", question := "q2", gt_answer := "B",
        modelCall := .ok ("hello", 1, none),
        judgeCall := fun s => Except.error "judge down" }).1 =
      errorRoundData "round2" "q2" "B" "m" "judge down" ∧
    addModelCount false (errorConvertedItem c4Result "m" "p") "m" (3, 2) =
      (3, 2) ∧
    round_answer_empty
      ((c10MultiRounds.foldl convertRoundStep ([], [], [], [])).1.map
        (fun kv => (kv.1, AnswerValue.astr kv.2)))
      (convertRoundKey (errorRoundData "round2" "q" "B" "m" "boom")) = true ∧
    count_item true (multiConvertedItem c4Result "m" "p" c10MultiRounds 2)
        "model" (multiConvertedEntry "m" c10MultiRounds 2) (some "m") =
      (1, 1) := by
  have h := judge_exhaustion_failure_recorded
  refine ⟨h.1 _ 3 (by decide), h.2.1 c4NoJson _ "m" "judge down" _
      (fun s => rfl), ?_, h.2.2.2.1 c4Result "m" "p" false (3, 2), ?_, ?_⟩
  · exact h.2.2.1 c4NoJson "m" _ "hello" 1 none "judge down" rfl (fun s => rfl)
  · exact h.2.2.2.2.1 c10MultiRounds _ (by decide)
      (List.mem_cons_of_mem _ (List.mem_cons_self _ _)) rfl
  · exact (h.2.2.2.2.2 c4Result "m" "p" c10MultiRounds 2).trans (by decide)

theorem countImageMsgs_le_length (l : List Msg) : countImageMsgs l ≤ l.length :=
  List.length_filter_le _ _

theorem countImageMsgs_cons (m : Msg) (l : List Msg) :
    countImageMsgs (m :: l) =
      (if msgHasImage m then 1 else 0) + countImageMsgs l := by
  unfold countImageMsgs
  rw [List.filter_cons]
  cases hm : msgHasImage m with
  | true => simp [Nat.add_comm]
  | false => simp

theorem countImageMsgs_zero (l : List Msg)
    (h : ∀ m ∈ l, msgHasImage m = false) : countImageMsgs l = 0 := by
  unfold countImageMsgs
  rw [List.filter_eq_nil_iff.mpr (by intro x hx; simp [h x hx])]
  rfl

theorem countImageMsgs_append (l1 l2 : List Msg) :
    countImageMsgs (l1 ++ l2) = countImageMsgs l1 + countImageMsgs l2 := by
  unfold countImageMsgs
  rw [List.filter_append, List.length_append]

theorem imageParts_all_image (avail : String → ImgKind) (paths : List String) :
    ∀ p ∈ imageParts avail paths, partIsImage p = true := by
  intro p hp
  unfold imageParts at hp
  rw [List.mem_filterMap] at hp
  obtain ⟨a, ha, hpa⟩ := hp
  unfold partForImage at hpa
  cases havail : avail a with
  | iurl =>
      simp only [havail, Option.some.injEq] at hpa
      subst hpa
      rfl
  | ifile =>
      simp only [havail, Option.some.injEq] at hpa
      subst hpa
      rfl
  | imissing =>
      simp only [havail] at hpa
      cases hpa

theorem imageParts_of_empty (avail : String → ImgKind) (paths : List String)
    (hp : paths.isEmpty = true) : imageParts avail paths = [] := by
  rw [List.isEmpty_iff] at hp
  subst hp
  rfl

theorem historyHasUserImage_none (t : List Msg)
    (h : ∀ m ∈ t, msgHasImage m = false) : historyHasUserImage t = false := by
  unfold historyHasUserImage
  rw [List.any_eq_false]
  intro m hm
  simp [h m hm]

theorem call_model_api_messages_empty (avail : String → ImgKind)
    (paths : List String) (msgs : List Msg) (hp : paths.isEmpty = true) :
    call_model_api_messages avail paths msgs = msgs := by
  unfold call_model_api_messages
  rw [if_pos hp]

theorem call_model_api_messages_no_patch (avail : String → ImgKind)
    (paths : List String) (m : Msg) (t : List Msg)
    (hcond : (m.role == "user" && !msgHasImage m) = false) :
    call_model_api_messages avail paths (m :: t) = m :: t := by
  unfold call_model_api_messages
  cases hp : paths.isEmpty with
  | true => rw [if_pos rfl]
  | false =>
      rw [if_neg (by simp)]
      dsimp only
      rw [hcond]
      rfl

theorem call_model_api_messages_patch (avail : String → ImgKind)
    (paths : List String) (m : Msg) (t : List Msg) (hp : paths.isEmpty = false)
    (hcond : (m.role == "user" && !msgHasImage m) = true) :
    call_model_api_messages avail paths (m :: t) =
      { m with content := m.content ++ imageParts avail paths } :: t := by
  unfold call_model_api_messages
  rw [if_neg (by simp [hp])]
  dsimp only
  rw [hcond]
  rfl

theorem convInv_count (avail : String → ImgKind) (paths : List String)
    (h : List Msg) (hinv : ConvInv avail paths h) : countImageMsgs h ≤ 1 := by
  cases h with
  | nil => exact le_trans (countImageMsgs_le_length []) (Nat.zero_le 1)
  | cons m t =>
      obtain ⟨hrole, htail, himp⟩ := hinv
      rw [countImageMsgs_cons, countImageMsgs_zero t htail]
      cases hm : msgHasImage m <;> simp

theorem conversationRoundStep_preserves (avail : String → ImgKind)
    (paths : List String) (r : BuilderRound) (h : List Msg)
    (hinv : ConvInv avail paths h) :
    ConvInv avail paths (conversationRoundStep avail paths r h).2 ∧
    countImageMsgs (conversationRoundStep avail paths r h).1 ≤ 1 := by
  cases h with
  | nil =>
      cases hp : paths.isEmpty with
      | true =>
          rw [List.isEmpty_iff] at hp
          subst hp
          refine ⟨⟨rfl, ?_, fun h2 => rfl⟩, ?_⟩
          · intro x hx
            rw [List.mem_singleton] at hx
            subst hx
            rfl
          · exact (countImageMsgs_le_length _).trans (by rfl)
      | false =>
          cases hipn : imageParts avail paths with
          | nil =>
              have hstep : conversationRoundStep avail paths r [] =
                  ([Msg.mk "user" [Part.ptext r.prompt]],
                   [Msg.mk "user" [Part.ptext r.question_text],
                    Msg.mk "assistant" [Part.ptext (brief_answer_for_history
                      r.extracted_answer r.original_response)]]) := by
                unfold conversationRoundStep call_model_api_messages
                dsimp only
                rw [hp, hipn]
                rfl
              rw [hstep]
              refine ⟨⟨rfl, ?_, fun h2 => hipn⟩, ?_⟩
              · intro x hx
                rw [List.mem_singleton] at hx
                subst hx
                rfl
              · exact (countImageMsgs_le_length _).trans (by rfl)
          | cons p ps =>
              have hpi : partIsImage p = true := imageParts_all_image avail
                paths p (by rw [hipn]; exact List.mem_cons_self _ _)
              have himg : msgHasImage
                  (Msg.mk "user" ((p :: ps) ++ [Part.ptext r.prompt]))
                  = true := by
                unfold msgHasImage
                rw [List.any_eq_true]
                exact ⟨p, by simp, hpi⟩
              have hstep : conversationRoundStep avail paths r [] =
                  ([Msg.mk "user" ((p :: ps) ++ [Part.ptext r.prompt])],
                   [Msg.mk "user"
                      ((((p :: ps) ++ [Part.ptext r.prompt]).filter
                        partIsImage) ++ [Part.ptext r.question_text]),
                    Msg.mk "assistant" [Part.ptext (brief_answer_for_history
                      r.extracted_answer r.original_response)]]) := by
                unfold conversationRoundStep
                dsimp only
                rw [show historyHasUserImage [] = false from rfl, hp, hipn]
                simp only [Bool.not_false, Bool.and_self, if_true,
                  List.nil_append]
                rw [call_model_api_messages_no_patch avail paths _ []
                  (by rw [himg]; rfl)]
                rfl
              rw [hstep]
              refine ⟨⟨rfl, ?_, fun h2 => ?_⟩, ?_⟩
              · intro x hx
                rw [List.mem_singleton] at hx
                subst hx
                rfl
              · exfalso
                have hsimg : msgHasImage
                    (Msg.mk "user"
                      ((((p :: ps) ++ [Part.ptext r.prompt]).filter
                        partIsImage) ++ [Part.ptext r.question_text]))
                    = true := by
                  unfold msgHasImage
                  rw [List.any_eq_true]
                  refine ⟨p, ?_, hpi⟩
                  rw [List.mem_append]
                  left
                  rw [List.mem_filter]
                  exact ⟨by simp, hpi⟩
                rw [hsimg] at h2
                cases h2
              · exact (countImageMsgs_le_length _).trans (by rfl)
  | cons m t =>
      obtain ⟨hrole, htail, himp⟩ := hinv
      have hanyt : historyHasUserImage t = false := historyHasUserImage_none t htail
      have hhis : historyHasUserImage (m :: t) = msgHasImage m := by
        unfold historyHasUserImage
        rw [List.any_cons]
        unfold historyHasUserImage at hanyt
        rw [hanyt, Bool.or_false, hrole]
        simp
      have hcount_t : countImageMsgs t = 0 := countImageMsgs_zero t htail
      cases hm : msgHasImage m with
      | true =>
          have hstep : conversationRoundStep avail paths r (m :: t) =
              (m :: (t ++ [Msg.mk "user" [Part.ptext r.prompt]]),
               m :: (t ++ [Msg.mk "user" [Part.ptext r.question_text],
                 Msg.mk "assistant" [Part.ptext (brief_answer_for_history
                   r.extracted_answer r.original_response)]])) := by
            unfold conversationRoundStep
            dsimp only
            rw [hhis, hm]
            simp only [Bool.not_true, Bool.false_and, Bool.false_eq_true,
              if_false, List.nil_append, List.cons_append]
            rw [call_model_api_messages_no_patch avail paths m _
              (by rw [hm]; simp)]
            rw [List.length_cons, List.take_succ_cons, List.take_left,
              List.drop_succ_cons, List.drop_left]
            rw [hhis, hm]
            simp only [Bool.not_true, Bool.false_and, Bool.false_eq_true,
              if_false, List.nil_append, List.cons_append]
          rw [hstep]
          refine ⟨⟨hrole, ?_, fun h2 => ?_⟩, ?_⟩
          · intro x hx
            rw [List.mem_append] at hx
            rcases hx with hx | hx
            · exact htail x hx
            · rw [List.mem_cons] at hx
              rcases hx with hx | hx
              · subst hx; rfl
              · rw [List.mem_singleton] at hx; subst hx; rfl
          · rw [hm] at h2; cases h2
          · have hz : countImageMsgs [Msg.mk "user" [Part.ptext r.prompt]]
                = 0 := by
              apply countImageMsgs_zero
              intro x hx
              rw [List.mem_singleton] at hx
              subst hx
              rfl
            rw [countImageMsgs_cons, countImageMsgs_append, hcount_t, hm, hz]
            simp
      | false =>
          have hip : imageParts avail paths = [] := himp hm
          have hsent : call_model_api_messages avail paths
              (m :: (t ++ [Msg.mk "user" [Part.ptext r.prompt]])) =
              m :: (t ++ [Msg.mk "user" [Part.ptext r.prompt]]) := by
            cases hp : paths.isEmpty with
            | true => exact call_model_api_messages_empty avail paths _ hp
            | false =>
                cases hcond : (m.role == "user" && !msgHasImage m) with
                | false =>
                    exact call_model_api_messages_no_patch avail paths m _ hcond
                | true =>
                    rw [call_model_api_messages_patch avail paths m _ hp hcond,
                      hip, List.append_nil]
          have hstep : conversationRoundStep avail paths r (m :: t) =
              (m :: (t ++ [Msg.mk "user" [Part.ptext r.prompt]]),
               m :: (t ++ [Msg.mk "user" [Part.ptext r.question_text],
                 Msg.mk "assistant" [Part.ptext (brief_answer_for_history
                   r.extracted_answer r.original_response)]])) := by
            unfold conversationRoundStep
            dsimp only
            rw [hhis, hm, hip]
            simp only [Bool.not_false, Bool.true_and, ite_self,
              List.nil_append, List.cons_append]
            rw [hsent]
            rw [List.length_cons, List.take_succ_cons, List.take_left,
              List.drop_succ_cons, List.drop_left]
            rw [hhis, hm]
            simp only [Bool.not_false, Bool.true_and, List.headD_cons]
            rw [show (([Part.ptext r.prompt] : List Part).filter partIsImage)
              = [] from rfl]
            simp only [ite_self, List.nil_append, List.cons_append]
          rw [hstep]
          refine ⟨⟨hrole, ?_, fun h2 => hip⟩, ?_⟩
          · intro x hx
            rw [List.mem_append] at hx
            rcases hx with hx | hx
            · exact htail x hx
            · rw [List.mem_cons] at hx
              rcases hx with hx | hx
              · subst hx; rfl
              · rw [List.mem_singleton] at hx; subst hx; rfl
          · have hz : countImageMsgs [Msg.mk "user" [Part.ptext r.prompt]]
                = 0 := by
              apply countImageMsgs_zero
              intro x hx
              rw [List.mem_singleton] at hx
              subst hx
              rfl
            rw [countImageMsgs_cons, countImageMsgs_append, hcount_t, hm, hz]
            simp

theorem runConversation_inv (avail : String → ImgKind) (paths : List String)
    (rounds : List BuilderRound) :
    ConvInv avail paths (runConversation avail paths rounds).2 ∧
    ∀ sent ∈ (runConversation avail paths rounds).1,
      countImageMsgs sent ≤ 1 := by
  unfold runConversation
  suffices H : ∀ (rs : List BuilderRound) (acc : List (List Msg) × List Msg),
      ConvInv avail paths acc.2 → (∀ s ∈ acc.1, countImageMsgs s ≤ 1) →
      ConvInv avail paths (rs.foldl (fun acc r =>
        let out := conversationRoundStep avail paths r acc.2
        (acc.1 ++ [out.1], out.2)) acc).2 ∧
      ∀ s ∈ (rs.foldl (fun acc r =>
        let out := conversationRoundStep avail paths r acc.2
        (acc.1 ++ [out.1], out.2)) acc).1, countImageMsgs s ≤ 1 by
    exact H rounds ([], []) trivial (by intro s hs; cases hs)
  intro rs
  induction rs with
  | nil => intro acc h1 h2; exact ⟨h1, h2⟩
  | cons r rs ih =>
      intro acc h1 h2
      rw [List.foldl_cons]
      refine ih _ ?_ ?_
      · exact (conversationRoundStep_preserves avail paths r acc.2 h1).1
      · intro s hs
        dsimp only at hs
        rw [List.mem_append] at hs
        rcases hs with hs | hs
        · exact h2 s hs
        · rw [List.mem_singleton] at hs
          subst hs
          exact (conversationRoundStep_preserves avail paths r acc.2 h1).2

/-- **C9.** Media appear in at most one turn of a task's conversation:
every message list sent to the model across all rounds, and the final
compacted history, carry image parts in at most one message; the
prompt-branch of `call_model_api` builds a single (user) turn, so it also
holds there; `call_model_api`'s message patch never touches any turn after
the first; and a first turn that already carries media is left entirely
unchanged (media are never re-attached). -/
theorem media_attached_at_most_once :
    (∀ (avail : String → ImgKind) (paths : List String)
        (rounds : List BuilderRound),
      countImageMsgs (runConversation avail paths rounds).2 ≤ 1 ∧
      ∀ sent ∈ (runConversation avail paths rounds).1,
        countImageMsgs sent ≤ 1) ∧
    (∀ (avail : String → ImgKind) (paths : List String) (prompt : String),
      countImageMsgs (call_model_api_prompt avail paths prompt) ≤ 1) ∧
    (∀ (avail : String → ImgKind) (paths : List String) (msgs : List Msg),
      (call_model_api_messages avail paths msgs).drop 1 = msgs.drop 1) ∧
    (∀ (avail : String → ImgKind) (paths : List String) (m : Msg)
        (rest : List Msg),
      msgHasImage m = true →
      call_model_api_messages avail paths (m :: rest) = m :: rest) := by
  refine ⟨?_, ?_, ?_, ?_⟩
  · intro avail paths rounds
    exact ⟨convInv_count avail paths _ (runConversation_inv avail paths rounds).1,
      (runConversation_inv avail paths rounds).2⟩
  · intro avail paths prompt
    exact (countImageMsgs_le_length _).trans (by rfl)
  · intro avail paths msgs
    unfold call_model_api_messages
    cases hp : paths.isEmpty with
    | true => rw [if_pos rfl]
    | false =>
        rw [if_neg (by simp)]
        cases msgs with
        | nil => rfl
        | cons m rest =>
            dsimp only
            cases hcond : (m.role == "user" && !msgHasImage m) <;> rfl
  · intro avail paths m rest hm
    exact call_model_api_messages_no_patch avail paths m rest
      (by rw [hm]; simp)

/-- Witness for `media_attached_at_most_once`: a concrete two-round
conversation over one existing image file, and a first turn that already
carries an image and is sent unchanged. -/
theorem media_attached_at_most_once_witness :
    countImageMsgs (runConversation c9Avail ["img"] c9Rounds).2 ≤ 1 ∧
    (∀ sent ∈ (runConversation c9Avail ["img"] c9Rounds).1,
      countImageMsgs sent ≤ 1) ∧
    msgHasImage c9ImgMsg = true ∧
    call_model_api_messages c9Avail ["img"] [c9ImgMsg] = [c9ImgMsg] := by
  have h := media_attached_at_most_once
  exact ⟨(h.1 c9Avail ["img"] c9Rounds).1, (h.1 c9Avail ["img"] c9Rounds).2,
    by decide, h.2.2.2 c9Avail ["img"] c9ImgMsg [] (by decide)⟩

/-- Witness for `scheduler_fair_share` at `W = 10`, `C = 3`. -/
theorem scheduler_fair_share_witness :
    (1 ≤ 10 ∧ 1 ≤ 3 ∧ max 1 (10 / 3) * 3 ≤ 10) ∧
    (scheduler_plan 10 3).combo_workers = 3 ∧
    (scheduler_plan 10 3).actual_per_combo = 3 ∧
    (scheduler_plan 10 3).actual_total_workers = 9 ∧
    (scheduler_plan 10 3).unused = 1 ∧
    (scheduler_plan 10 3).warn_unused = true := by
  have h := scheduler_fair_share 10 3 (by decide) (by decide) (by decide)
  refine ⟨⟨by decide, by decide, by decide⟩, h.2.1, ?_, ?_, ?_, ?_⟩
  · exact h.2.2.1.trans (by decide)
  · exact h.2.2.2.1.trans (by decide)
  · exact h.2.2.2.2.1.trans (by decide)
  · exact h.2.2.2.2.2.1.mpr (by rw [h.2.2.2.2.1]; decide)

end UniFinEval
